import Mathlib

/-!
Verification of the seat-inventory and booking-state-machine subsystem of the
safarshare backend.

The repository contains two live variants of the booking domain:

* the request-to-book variant (`src/routes/bookings.js`, `src/routes/rides.js`,
  CommonJS models `src/models/Ride.js`, `src/models/Booking.js`,
  `src/models/Payment.js`), with booking statuses
  pending/accepted/declined/completed/cancelled, and
* the instant-book variant (`src/routes/ride.js`, the ES-module Ride schema in
  `src/models/Ride.js`), with booking statuses booked/cancelled.

Both are embedded below.  Mongoose persistence is modelled explicitly:
`save()` runs the schema validators and the registered pre-save hooks and
rejects the write (nothing is persisted) when one fails, while
`findByIdAndUpdate` / `findOneAndUpdate` with `$inc` bypass validators and
pre-save hooks.  The unique compound index on (rideId, passengerId) is checked
on insert.  Notification fan-out (which never touches Ride/Booking/Payment
state, and whose failures the routes swallow in inner try/catch blocks) and
user-profile documents are elided; `populate` of a referenced ride is modelled
as a lookup that can fail, reproducing the crashes the routes exhibit on
dangling references.
-/

namespace SafarShare

/-- Ride status enum of both Ride schemas in `src/models/Ride.js`. -/
inductive RideStatus
  | active
  | completed
  | cancelled
deriving DecidableEq, Repr

/-- Booking status enum of the CommonJS `src/models/Booking.js`. -/
inductive BookingStatus
  | pending
  | accepted
  | declined
  | completed
  | cancelled
deriving DecidableEq, Repr

/-- `paymentStatus` enum of the CommonJS Booking schema. -/
inductive PayFlag
  | pending
  | paid
  | failed
  | refunded
deriving DecidableEq, Repr

/-- Status enum of `src/models/Payment.js`. -/
inductive PaymentStatus
  | pending
  | processing
  | succeeded
  | failed
  | refunded
deriving DecidableEq, Repr

/-- The CommonJS Ride document (`src/models/Ride.js`, first schema).  Location,
date, vehicle and preference fields never interact with the booking logic and
are omitted; `bookingRefs` is the schema's `bookings` array of Booking ids.
Counters are integers (the routes only ever add or subtract integers). -/
structure Ride where
  id : Nat
  driverId : Nat
  pricePerSeat : Int
  availableSeats : Int
  totalSeats : Int
  status : RideStatus
  bookingRefs : List Nat
deriving DecidableEq, Repr

/-- The CommonJS Booking document (`src/models/Booking.js`).  `seatsBooked` is
an `Option` because one route (`POST /:rideId/book` in `src/routes/rides.js`)
constructs a document without that required path; the validator below rejects
such a document on save.  `mpesa` receipt fields are claim-irrelevant strings
and are omitted. -/
structure Booking where
  id : Nat
  rideId : Nat
  passengerId : Nat
  seatsBooked : Option Int
  status : BookingStatus
  message : String
  totalAmount : Int
  paymentStatus : PayFlag
deriving DecidableEq, Repr

/-- Reading `booking.seatsBooked` on a persisted (validated) document. -/
def Booking.seats (b : Booking) : Int := b.seatsBooked.getD 0

/-- The Payment document (`src/models/Payment.js`).  Monetary fields are exact
rationals standing for the JavaScript floating-point numbers. -/
structure Payment where
  id : Nat
  bookingId : Nat
  payerId : Nat
  receiverId : Nat
  amount : ℚ
  platformFee : ℚ
  driverPayout : ℚ
  status : PaymentStatus
  mpesaPhoneNumber : String
  failureReason : Option String
deriving DecidableEq, Repr

/-- The persistent store for the request-to-book variant. -/
structure Db where
  rides : List Ride
  bookings : List Booking
  payments : List Payment
deriving DecidableEq, Repr

/-- Schema validators of the CommonJS Ride schema: `pricePerSeat` min 0,
`availableSeats` min 0 max 8, `totalSeats` min 1 max 8. -/
def rideValidatorsOk (r : Ride) : Bool :=
  decide (0 ≤ r.pricePerSeat) && decide (0 ≤ r.availableSeats) &&
  decide (r.availableSeats ≤ 8) && decide (1 ≤ r.totalSeats) &&
  decide (r.totalSeats ≤ 8)

/-- The `rideSchema.pre('save')` hook (`src/models/Ride.js` lines 114-119):
errors out when `availableSeats > totalSeats`. -/
def ridePreSaveOk (r : Ride) : Bool :=
  decide (r.availableSeats ≤ r.totalSeats)

/-- Schema validators of the CommonJS Booking schema: `seatsBooked` required,
min 1, max 4; `totalAmount` required, min 0. -/
def bookingValidatorsOk (b : Booking) : Bool :=
  match b.seatsBooked with
  | none => false
  | some s => decide (1 ≤ s) && decide (s ≤ 4) && decide (0 ≤ b.totalAmount)

/-- Replace the ride with the same id (a persisted update of one document). -/
def putRide (db : Db) (r : Ride) : Db :=
  { db with rides := db.rides.map fun x => if x.id == r.id then r else x }

/-- Replace the booking with the same id. -/
def putBooking (db : Db) (b : Booking) : Db :=
  { db with bookings := db.bookings.map fun x => if x.id == b.id then b else x }

/-- `ride.save()`: validators plus the pre-save hook; on failure nothing is
persisted. -/
def saveRide (db : Db) (r : Ride) : Option Db :=
  if rideValidatorsOk r && ridePreSaveOk r then some (putRide db r) else none

/-- `booking.save()` on an already-persisted document whose (rideId,
passengerId) pair is unchanged: schema validators only. -/
def saveBookingUpdate (db : Db) (b : Booking) : Option Db :=
  if bookingValidatorsOk b then some (putBooking db b) else none

/-- The unique compound index on (rideId, passengerId)
(`src/models/Booking.js` lines 55-56).  It is not scoped to any status
predicate: an insert conflicts with any existing booking for the same pair. -/
def uniqueIndexOk (db : Db) (b : Booking) : Bool :=
  db.bookings.all fun x => !(x.rideId == b.rideId && x.passengerId == b.passengerId)

/-- `booking.save()` on a new document: validators plus the unique index. -/
def insertBooking (db : Db) (b : Booking) : Option Db :=
  if bookingValidatorsOk b && uniqueIndexOk db b then
    some { db with bookings := db.bookings ++ [b] }
  else none

/-- `Ride.findById` / `populate('rideId')`. -/
def findRide (db : Db) (id : Nat) : Option Ride :=
  db.rides.find? fun r => r.id == id

/-- `Booking.findById`. -/
def findBooking (db : Db) (id : Nat) : Option Booking :=
  db.bookings.find? fun b => b.id == id

/-- Typed outcomes of the route handlers.  `serverError` is the catch-all 500
response produced when a thrown exception (mongoose validation error,
duplicate-key error, `TypeError` on a dangling reference, `ReferenceError` on
an undefined identifier) reaches the outer catch block. -/
inductive ErrKind
  | validationFailed
  | rideNotFound
  | bookingNotFound
  | selfBooking
  | insufficientSeats
  | duplicateBooking
  | unauthorized
  | notPending
  | alreadyCancelled
  | rideNotActive
  | reserveFailed
  | notAccepted
  | alreadyPaid
  | paymentFailed
  | serverError
deriving DecidableEq, Repr

/-- A handler run: the store after the request plus `none` for a success
response or the error that was returned. -/
abbrev Outcome := Db × Option ErrKind

/-- `POST /` in `src/routes/bookings.js` (create a booking, request-to-book
variant).  The input guard `!rideId || !seatsBooked` rejects a falsy (zero)
seat count; the route checks ride existence, self-booking, raw seat
availability and the absence of an active (not cancelled, not declined)
booking for the pair, then persists a new pending booking.  Seats are NOT
decremented here.  A mongoose error thrown by `booking.save()` (validation or
duplicate-key, since the unique index ignores status) is answered with the
catch-all 500. -/
def createBooking (db : Db) (passengerId : Nat) (rideId : Nat)
    (seatsBooked : Int) (message : String) (newId : Nat) : Outcome :=
  if seatsBooked == 0 then (db, some .validationFailed)
  else
    match findRide db rideId with
    | none => (db, some .rideNotFound)
    | some ride =>
      if ride.driverId == passengerId then (db, some .selfBooking)
      else if decide (ride.availableSeats < seatsBooked) then
        (db, some .insufficientSeats)
      else if db.bookings.any (fun b =>
          b.rideId == rideId && b.passengerId == passengerId &&
          !(b.status == .cancelled) && !(b.status == .declined)) then
        (db, some .duplicateBooking)
      else
        let b : Booking :=
          { id := newId, rideId := rideId, passengerId := passengerId,
            seatsBooked := some seatsBooked, status := .pending,
            message := message,
            totalAmount := ride.pricePerSeat * seatsBooked,
            paymentStatus := .pending }
        match insertBooking db b with
        | none => (db, some .serverError)
        | some db1 => (db1, none)

/-- `PUT /:bookingId/accept` in `src/routes/bookings.js`.  After the guards it
persists `booking.status = 'accepted'`, then decrements and persists the
ride's `availableSeats` (this variant reserves seats at acceptance).  The
handler then evaluates `User.findById(...)` where `User` is an undefined
identifier (line 181; the file imports `ClerkUser`, not `User`), so every run
that reaches that line throws a `ReferenceError` and answers 500 — after both
writes have already been persisted. -/
def acceptBooking (db : Db) (actorId : Nat) (bookingId : Nat) : Outcome :=
  match findBooking db bookingId with
  | none => (db, some .bookingNotFound)
  | some b =>
    match findRide db b.rideId with
    | none => (db, some .serverError)
    | some ride =>
      if !(ride.driverId == actorId) then (db, some .unauthorized)
      else if !(b.status == .pending) then (db, some .notPending)
      else if decide (ride.availableSeats < b.seats) then
        (db, some .insufficientSeats)
      else
        match saveBookingUpdate db { b with status := .accepted } with
        | none => (db, some .serverError)
        | some db1 =>
          match saveRide db1
              { ride with availableSeats := ride.availableSeats - b.seats } with
          | none => (db1, some .serverError)
          | some db2 => (db2, some .serverError)

/-- `PUT /:bookingId/decline` in `src/routes/bookings.js`: driver-only, only
from `pending`; persists `declined` and does not touch the seat counter. -/
def declineBooking (db : Db) (actorId : Nat) (bookingId : Nat) : Outcome :=
  match findBooking db bookingId with
  | none => (db, some .bookingNotFound)
  | some b =>
    match findRide db b.rideId with
    | none => (db, some .serverError)
    | some ride =>
      if !(ride.driverId == actorId) then (db, some .unauthorized)
      else if !(b.status == .pending) then (db, some .notPending)
      else
        match saveBookingUpdate db { b with status := .declined } with
        | none => (db, some .serverError)
        | some db1 => (db1, none)

/-- `PUT /:bookingId/cancel` in `src/routes/bookings.js`: passenger-only,
rejected only when already cancelled.  Persists `cancelled`, then — only when
the previous status was `accepted` — adds the booked seats back to the ride
and persists it through `save()` (so the pre-save hook applies).  A failure
in that second write (dangling ride reference, or the hook) reaches the catch
block after the booking write was already persisted. -/
def cancelBooking (db : Db) (actorId : Nat) (bookingId : Nat) : Outcome :=
  match findBooking db bookingId with
  | none => (db, some .bookingNotFound)
  | some b =>
    if !(b.passengerId == actorId) then (db, some .unauthorized)
    else if b.status == .cancelled then (db, some .alreadyCancelled)
    else
      match saveBookingUpdate db { b with status := .cancelled } with
      | none => (db, some .serverError)
      | some db1 =>
        if b.status == .accepted then
          match findRide db b.rideId with
          | none => (db1, some .serverError)
          | some ride =>
            match saveRide db1
                { ride with availableSeats := ride.availableSeats + b.seats } with
            | none => (db1, some .serverError)
            | some db2 => (db2, none)
        else (db1, none)

/-- `POST /:rideId/book` in `src/routes/rides.js`.  The express-validator
chain requires `seats` to be an integer between 1 and 8.  After the guards
(self-booking, ride active, raw availability, duplicate pending booking —
the `$in ['pending','confirmed']` filter can only match `pending`, since
`confirmed` is not in the Booking status enum) the route constructs
`new Booking({..., seats, ...})`.  `seats` is not a Booking schema path, so
the required `seatsBooked` path is missing and `booking.save()` always throws
a validation error, answered with the catch-all 500 before the ride is
touched; the seat decrement and `ride.bookings.push` below it are dead
code. -/
def ridesJsBook (db : Db) (passengerId : Nat) (rideId : Nat)
    (seats : Int) (newId : Nat) : Outcome :=
  if decide (seats < 1) || decide (8 < seats) then (db, some .validationFailed)
  else
    match findRide db rideId with
    | none => (db, some .rideNotFound)
    | some ride =>
      if ride.driverId == passengerId then (db, some .selfBooking)
      else if !(ride.status == .active) then (db, some .rideNotActive)
      else if decide (ride.availableSeats < seats) then
        (db, some .insufficientSeats)
      else if db.bookings.any (fun b =>
          b.rideId == rideId && b.passengerId == passengerId &&
          b.status == .pending) then
        (db, some .duplicateBooking)
      else
        let b : Booking :=
          { id := newId, rideId := rideId, passengerId := passengerId,
            seatsBooked := none, status := .pending, message := "",
            totalAmount := ride.pricePerSeat * seats,
            paymentStatus := .pending }
        match insertBooking db b with
        | none => (db, some .serverError)
        | some db1 =>
          match saveRide db1
              { ride with availableSeats := ride.availableSeats - seats,
                          bookingRefs := ride.bookingRefs ++ [newId] } with
          | none => (db1, some .serverError)
          | some db2 => (db2, none)

/-- `DELETE /:rideId` in `src/routes/rides.js` (cancel ride, driver only).
Every booking listed in the ride's own `bookings` array is force-set to
`cancelled` via `findByIdAndUpdate` (no validators, no seat release), then
the ride's status is persisted as `cancelled` through `save()`. -/
def cancelRide (db : Db) (actorId : Nat) (rideId : Nat) : Outcome :=
  match db.rides.find? (fun r => r.id == rideId && r.driverId == actorId) with
  | none => (db, some .rideNotFound)
  | some ride =>
    let db1 : Db :=
      { db with bookings := db.bookings.map fun b =>
          if ride.bookingRefs.contains b.id then { b with status := .cancelled }
          else b }
    match saveRide db1 { ride with status := .cancelled } with
    | none => (db1, some .serverError)
    | some db2 => (db2, none)

/-- The seat-release step of `PUT /:bookingId/cancel` in
`src/routes/bookings.js` (lines 282-286) in isolation: add `count` back to the
ride's `availableSeats` and persist through `save()`, so the pre-save hook
rejects (errors out, persisting nothing) whenever the result would exceed
`totalSeats`.  There is no clamping anywhere on this path. -/
def releaseSeats (db : Db) (rideId : Nat) (count : Int) : Option Db :=
  match findRide db rideId with
  | none => none
  | some ride =>
    saveRide db { ride with availableSeats := ride.availableSeats + count }

/-- Written from the spec's words for comparison with `releaseSeats` (claim
C8): unconditionally increment `availableSeats` by `count`, clamped so it can
never exceed `totalSeats`. -/
def releaseSeatsClampedSpec (db : Db) (rideId : Nat) (count : Int) : Option Db :=
  match findRide db rideId with
  | none => none
  | some ride =>
    some (putRide db
      { ride with availableSeats := min ride.totalSeats (ride.availableSeats + count) })

/-- The `mpesaPhoneNumber` pattern of `src/routes/payments.js`:
`^(\+254|254|0)?[17]\d\x7b8\x7d$`. -/
def phonePatternOk (s : String) : Bool :=
  let cs := s.data
  let rest :=
    if cs.take 4 == ['+', '2', '5', '4'] then cs.drop 4
    else if cs.take 3 == ['2', '5', '4'] then cs.drop 3
    else if cs.take 1 == ['0'] then cs.drop 1
    else cs
  match rest with
  | c :: ds => (c == '1' || c == '7') && ds.length == 8 && ds.all Char.isDigit
  | [] => false

/-- The phone normalisation of `src/routes/payments.js` lines 74-81. -/
def formatPhone (s : String) : String :=
  let t := String.mk (s.data.filter fun c => !(c == ' '))
  if t.startsWith "0" then "+254" ++ t.drop 1
  else if t.startsWith "254" then "+" ++ t
  else if !t.startsWith "+254" then "+254" ++ t
  else t

/-- JavaScript `Math.round` on an exact rational. -/
def jsRound (q : ℚ) : ℤ := ⌊q + 1 / 2⌋

/-- Validators of the Payment schema that involve modelled fields: the three
amounts have `min: 0` and the phone number is required. -/
def paymentValidatorsOk (p : Payment) : Bool :=
  decide (0 ≤ p.amount) && decide (0 ≤ p.platformFee) &&
  decide (0 ≤ p.driverPayout) && !(p.mpesaPhoneNumber == "")

/-- `POST /` in `src/routes/payments.js` (create payment / settlement).
`gatewayOk` stands for the simulated M-Pesa STK push outcome
(`Math.random() > 0.1`).  The settlement guard: the booking must exist,
belong to the caller, be `accepted`, and not be paid already; only then is a
`processing` Payment persisted and the gateway consulted.  On gateway success
the payment becomes `succeeded` and the booking's `paymentStatus` becomes
`paid`; on gateway failure the payment is persisted as `failed` and the route
answers 400. -/
def createPayment (db : Db) (actorId : Nat) (bookingId : Nat)
    (mpesaPhoneNumber : String) (gatewayOk : Bool) (newId : Nat) : Outcome :=
  if !(phonePatternOk mpesaPhoneNumber) then (db, some .validationFailed)
  else
    match findBooking db bookingId with
    | none => (db, some .bookingNotFound)
    | some b =>
      if !(b.passengerId == actorId) then (db, some .unauthorized)
      else if !(b.status == .accepted) then (db, some .notAccepted)
      else if b.paymentStatus == .paid then (db, some .alreadyPaid)
      else
        let amount : ℚ := (b.totalAmount : ℚ)
        let platformFee : ℚ := (jsRound (amount * (5 / 100) * 100) : ℚ) / 100
        let driverPayout : ℚ := amount - platformFee
        match findRide db b.rideId with
        | none => (db, some .serverError)
        | some ride =>
          let p : Payment :=
            { id := newId, bookingId := bookingId, payerId := actorId,
              receiverId := ride.driverId, amount := amount,
              platformFee := platformFee, driverPayout := driverPayout,
              status := .processing,
              mpesaPhoneNumber := formatPhone mpesaPhoneNumber,
              failureReason := none }
          if !(paymentValidatorsOk p) then (db, some .serverError)
          else
            let db1 : Db := { db with payments := db.payments ++ [p] }
            if gatewayOk then
              let db2 : Db :=
                { db1 with payments := db1.payments.map fun x =>
                    if x.id == newId then { x with status := .succeeded } else x }
              match saveBookingUpdate db2 { b with paymentStatus := .paid } with
              | none => (db2, some .serverError)
              | some db3 => (db3, none)
            else
              let db2 : Db :=
                { db1 with payments := db1.payments.map fun x =>
                    if x.id == newId then
                      { x with status := .failed,
                               failureReason := some "gateway" }
                    else x }
              (db2, some .paymentFailed)

end SafarShare

namespace SafarShare.IB

/-!
The instant-book variant: `src/routes/ride.js` together with the ES-module
Ride schema (second schema in `src/models/Ride.js`).  That schema has fields
driver, passenger, startLocation, destination, departureTime, availableSeats,
price, status — in particular it has NO `totalSeats` field, no seat-bound
validators and no pre-save hook.
-/

/-- The ES-module Ride document. -/
structure Ride where
  id : Nat
  driver : Nat
  availableSeats : Int
  price : Int
  status : SafarShare.RideStatus
deriving DecidableEq, Repr

/-- Modelled from the spec: the ES-module Booking schema imported by
`src/routes/ride.js` is not part of the sources; per the spec it is the
two-state variant — "one booking-model variant uses only two states
(`booked`, `cancelled`) with no `pending`/`accepted` distinction" — and the
route uses its `ride`, `passenger`, `seatsBooked` and `status` fields. -/
inductive BookedStatus
  | booked
  | cancelled
deriving DecidableEq, Repr

/-- Modelled from the spec: the two-state Booking document of the instant-book
variant (see `BookedStatus`). -/
structure Booking where
  id : Nat
  ride : Nat
  passenger : Nat
  seatsBooked : Int
  status : BookedStatus
deriving DecidableEq, Repr

/-- The store of the instant-book variant. -/
structure Db where
  rides : List Ride
  bookings : List Booking
deriving DecidableEq, Repr

def findRide (db : Db) (id : Nat) : Option Ride :=
  db.rides.find? fun r => r.id == id

def putRide (db : Db) (r : Ride) : Db :=
  { db with rides := db.rides.map fun x => if x.id == r.id then r else x }

def putBooking (db : Db) (b : Booking) : Db :=
  { db with bookings := db.bookings.map fun x => if x.id == b.id then b else x }

/-- A JSON body value, as far as `parseInt` distinguishes them. -/
inductive JsVal
  | undef
  | num (n : Int)
  | str (s : String)
deriving DecidableEq, Repr

/-- JavaScript `parseInt` on a string: skip leading spaces, optional sign,
then the longest digit prefix; `NaN` (here `none`) when no digit follows. -/
def parseIntStr (s : String) : Option Int :=
  let cs := s.data.dropWhile fun c => c == ' '
  let signed : Bool × List Char :=
    match cs with
    | '-' :: t => (true, t)
    | '+' :: t => (false, t)
    | _ => (false, cs)
  let ds := signed.2.takeWhile Char.isDigit
  if ds.isEmpty then none
  else
    let n : Nat := ds.foldl (fun acc c => acc * 10 + (c.toNat - 48)) 0
    some (if signed.1 then -(n : Int) else (n : Int))

/-- JavaScript `parseInt` on a JSON value (`NaN` is `none`). -/
def parseIntJs : JsVal → Option Int
  | .undef => none
  | .num n => some n
  | .str s => parseIntStr s

/-- `parseInt(req.body.seats) || 1`: the fallback fires on the falsy results
`NaN` and `0`. -/
def orOne : Option Int → Int
  | none => 1
  | some n => if n == 0 then 1 else n

/-- `Math.max(1, parseInt(req.body.seats) || 1)`
(`src/routes/ride.js` line 176). -/
def seatsRequested (v : JsVal) : Int := max 1 (orOne (parseIntJs v))

/-- The `Ride.findOneAndUpdate` of `src/routes/ride.js` lines 199-207: one
conditional store update that checks `status == active` and
`availableSeats >= n` and decrements in the same atomic step; `none` when the
condition fails. -/
def reserveSeats (r : Ride) (n : Int) : Option Ride :=
  if r.status == .active && decide (n ≤ r.availableSeats) then
    some { r with availableSeats := r.availableSeats - n }
  else none

/-- `POST /book/:rideId` in `src/routes/ride.js` (instant book).  Guards:
duplicate `booked` booking for the pair, ride existence, ride active; then
the atomic `reserveSeats` conditional update (whose failure is answered with
the merged 404 "Ride not found, not active, or insufficient seats"), then the
booking insert. -/
def book (db : Db) (passengerId : Nat) (rideId : Nat)
    (seats : JsVal) (newId : Nat) : Db × Option ErrKind :=
  let n := seatsRequested seats
  if db.bookings.any (fun b =>
      b.ride == rideId && b.passenger == passengerId &&
      b.status == .booked) then
    (db, some .duplicateBooking)
  else
    match findRide db rideId with
    | none => (db, some .rideNotFound)
    | some rideDoc =>
      if !(rideDoc.status == .active) then (db, some .rideNotActive)
      else
        match reserveSeats rideDoc n with
        | none => (db, some .reserveFailed)
        | some ride1 =>
          let db1 := putRide db ride1
          let b : Booking :=
            { id := newId, ride := rideId, passenger := passengerId,
              seatsBooked := n, status := .booked }
          ({ db1 with bookings := db1.bookings ++ [b] }, none)

/-- `POST /cancel/:bookingId` in `src/routes/ride.js` (cancel a booking).
404 unless the booking exists with status `booked`; 403 unless the caller is
its passenger.  The seat restore is `Ride.findByIdAndUpdate` with
`$inc availableSeats: booking.seatsBooked` — no validators, no hook, no
clamp — followed by persisting the booking as `cancelled`.  A dangling ride
reference crashes (`booking.ride._id` on `null`) before anything is
persisted. -/
def cancel (db : Db) (actorId : Nat) (bookingId : Nat) : Db × Option ErrKind :=
  match db.bookings.find? (fun b => b.id == bookingId) with
  | none => (db, some .bookingNotFound)
  | some b =>
    if !(b.status == .booked) then (db, some .bookingNotFound)
    else if !(b.passenger == actorId) then (db, some .unauthorized)
    else
      match findRide db b.ride with
      | none => (db, some .serverError)
      | some ride =>
        let db1 := putRide db
          { ride with availableSeats := ride.availableSeats + b.seatsBooked }
        (putBooking db1 { b with status := .cancelled }, none)

/-- Two instant-book requests racing on one ride.  Each request's only write
is the single conditional `reserveSeats` update (followed by an insert of its
own fresh booking document), and its preliminary reads are unaffected by the
other request when the passengers are distinct, so every interleaving of the
two handlers is outcome-equivalent to one of the two serial orders; the
`firstIsA` flag selects which request's atomic step commits first. -/
def racePair (db : Db) (firstIsA : Bool)
    (pA pB : Nat) (rideId : Nat) (vA vB : JsVal) (idA idB : Nat) :
    Db × (Option ErrKind × Option ErrKind) :=
  if firstIsA then
    let a := book db pA rideId vA idA
    let b := book a.1 pB rideId vB idB
    (b.1, (a.2, b.2))
  else
    let b := book db pB rideId vB idB
    let a := book b.1 pA rideId vA idA
    (a.1, (a.2, b.2))

end SafarShare.IB

namespace SafarShare

/-! Concrete fixtures: Scenario A of the spec (ride with totalSeats = 4,
availableSeats = 4, price 500; passenger 1 books 2 seats on driver 7's
ride). -/

/-- Scenario A ride. -/
def rideA : Ride :=
  { id := 0, driverId := 7, pricePerSeat := 500, availableSeats := 4,
    totalSeats := 4, status := .active, bookingRefs := [] }

/-- Store holding only the Scenario A ride. -/
def dbA : Db := { rides := [rideA], bookings := [], payments := [] }

/-- Store after passenger 1 created a 2-seat booking (id 10). -/
def dbB : Db := (createBooking dbA 1 0 2 "" 10).1

/-- Store after driver 7 accepted booking 10. -/
def dbC : Db := (acceptBooking dbB 7 10).1

/-- Store after passenger 1 cancelled booking 10. -/
def dbD : Db := (cancelBooking dbC 1 10).1

/-- availableSeats of a ride as stored, `none` when the ride is absent. -/
def availOf (db : Db) (rideId : Nat) : Option Int :=
  (findRide db rideId).map (·.availableSeats)

/-- C3 (code bug).  A well-formed accept — driver 7 accepts the pending
2-seat booking 10 on a ride with 4 free seats — persists
`booking.status = 'accepted'` and the seat decrement, and then the handler
answers 500 anyway, because line 181 of `src/routes/bookings.js` evaluates
`User.findById` with `User` an undefined identifier.  So an error response
does NOT imply that no state was mutated. -/
theorem c3_accept_errors_after_mutation :
    (acceptBooking dbB 7 10).2 = some .serverError ∧
    (acceptBooking dbB 7 10).1 ≠ dbB ∧
    availOf (acceptBooking dbB 7 10).1 0 = some 2 ∧
    (findBooking (acceptBooking dbB 7 10).1 10).map (·.status) =
      some .accepted := by
  decide

/-- C2 counterexample.  In the request-to-book variant (`POST /` in
`src/routes/bookings.js`) `createBooking` never decrements seats, and its
capacity check is a plain read: with `availableSeats = 1`, the serial
schedule — one possible schedule of two concurrent requests — in which
passenger 1 and then passenger 2 each book 1 seat lets BOTH succeed, so it is
false that exactly one succeeds and the other fails with insufficient
capacity. -/
theorem c2_counterexample :
    (createBooking
        { rides := [{ id := 0, driverId := 7, pricePerSeat := 100,
                      availableSeats := 1, totalSeats := 1, status := .active,
                      bookingRefs := [] }],
          bookings := [], payments := [] } 1 0 1 "" 10).2 = none ∧
    (createBooking
        (createBooking
          { rides := [{ id := 0, driverId := 7, pricePerSeat := 100,
                        availableSeats := 1, totalSeats := 1, status := .active,
                        bookingRefs := [] }],
            bookings := [], payments := [] } 1 0 1 "" 10).1 2 0 1 "" 11).2 =
      none := by
  decide

/-- C4 counterexample.  Accepting the pending 2-seat booking changes the
ride's availableSeats from 4 to 2: acceptance does NOT leave the seat counter
unchanged in this code (seats were not reserved at creation). -/
theorem c4_counterexample :
    availOf dbB 0 = some 4 ∧ availOf (acceptBooking dbB 7 10).1 0 = some 2 := by
  decide

/-- The spec's seat-accounting invariant, literally: seat-holding states are
`pending` and `accepted` (glossary of the spec). -/
def specSeatAccounting (db : Db) : Prop :=
  ∀ r ∈ db.rides,
    r.totalSeats - r.availableSeats =
      ((db.bookings.filter fun b =>
          b.rideId == r.id &&
          (b.status == .pending || b.status == .accepted)).map
        Booking.seats).sum

instance (db : Db) : Decidable (specSeatAccounting db) := by
  unfold specSeatAccounting
  infer_instance

/-- C6 counterexample.  The empty Scenario A store satisfies the spec's
invariant, but after `createBooking` persists a pending 2-seat booking
without decrementing the counter, `totalSeats - availableSeats = 0` while the
seat-holding (pending) bookings sum to 2. -/
theorem c6_counterexample :
    specSeatAccounting dbA ∧ ¬ specSeatAccounting dbB := by
  decide

/-- C7 counterexample.  In `dbD` passenger 1's only booking on ride 0 is
`cancelled`, yet a new `createBooking` for the same pair fails: the
application-level duplicate check passes (no active booking), but the unique
index on (rideId, passengerId) — which is not scoped to active statuses —
rejects the insert, and the route answers with the catch-all 500.  Nothing is
persisted. -/
theorem c7_counterexample :
    ((findBooking dbD 10).map (·.status) = some .cancelled) ∧
    (createBooking dbD 1 0 2 "" 11).2 = some .serverError ∧
    (createBooking dbD 1 0 2 "" 11).1 = dbD := by
  decide

/-- C8 counterexample.  Releasing 2 seats on the Scenario A ride that already
has `availableSeats = totalSeats = 4`: the claim demands the clamped result
(availableSeats stays 4, no error), but the code's release path rejects the
save — the pre-save hook errors out — and persists nothing. -/
theorem c8_counterexample :
    releaseSeats dbA 0 2 = none ∧
    releaseSeatsClampedSpec dbA 0 2 = some dbA := by
  decide

/-- C9.  Payment settlement (`POST /` in `src/routes/payments.js`) on a
booking whose status is `pending`, `declined` or `cancelled` fails with the
invalid-state error ("Booking must be accepted before payment") and returns
the store untouched, whatever the gateway would have answered. -/
theorem c9_settlement_requires_accepted (db : Db) (actorId bookingId : Nat)
    (phone : String) (gatewayOk : Bool) (newId : Nat) (b : Booking)
    (hphone : phonePatternOk phone = true)
    (hfind : findBooking db bookingId = some b)
    (hmine : b.passengerId = actorId)
    (hstatus : b.status = .pending ∨ b.status = .declined ∨
      b.status = .cancelled) :
    createPayment db actorId bookingId phone gatewayOk newId =
      (db, some .notAccepted) := by
  unfold createPayment
  rw [hphone, hfind]
  have hacc : (b.status == BookingStatus.accepted) = false := by
    rcases hstatus with h | h | h <;> simp [h]
  simp [hmine, hacc]

/-- C9 witness: settling the still-pending booking 10 of `dbB` fails with the
invalid-state error and leaves the store unchanged. -/
theorem c9_settlement_requires_accepted_witness :
    createPayment dbB 1 10 "0712345678" true 50 = (dbB, some .notAccepted) :=
  c9_settlement_requires_accepted dbB 1 10 "0712345678" true 50
    { id := 10, rideId := 0, passengerId := 1, seatsBooked := some 2,
      status := .pending, message := "", totalAmount := 1000,
      paymentStatus := .pending }
    (by decide) (by decide) (by decide) (by decide)

/-- A `seats` body value that is missing, non-numeric, zero or negative:
`parseInt` yields `NaN` (`none`) or a non-positive integer. -/
def badSeatsInput (v : IB.JsVal) : Prop :=
  IB.parseIntJs v = none ∨ ∃ k, IB.parseIntJs v = some k ∧ k ≤ 0

/-- C10.  In the instant-book route the requested seat count is
`Math.max(1, parseInt(seats) || 1)`: for a missing, non-numeric, zero or
negative `seats` value the coercion yields exactly 1 and the whole request
behaves identically to a request for 1 seat — it is not rejected on account
of the seats value. -/
theorem c10_seats_coercion (v : IB.JsVal) (h : badSeatsInput v) :
    IB.seatsRequested v = 1 ∧
    ∀ (db : IB.Db) (passengerId rideId newId : Nat),
      IB.book db passengerId rideId v newId =
        IB.book db passengerId rideId (.num 1) newId := by
  have h1 : IB.seatsRequested v = 1 := by
    rcases h with h | ⟨k, hk, hk0⟩
    · simp [IB.seatsRequested, h, IB.orOne]
    · by_cases hz : k = 0
      · simp [IB.seatsRequested, hk, IB.orOne, hz]
      · have hkb : (k == 0) = false := by simp [hz]
        simp only [IB.seatsRequested, hk, IB.orOne, hkb, Bool.false_eq_true,
          if_false]
        omega
  refine ⟨h1, ?_⟩
  intro db passengerId rideId newId
  unfold IB.book
  rw [h1]
  rfl

/-- C10 witness: the non-numeric string "abc" is coerced to 1 seat, and on a
one-seat active ride the request proceeds and books exactly 1 seat. -/
theorem c10_seats_coercion_witness :
    IB.seatsRequested (.str "abc") = 1 ∧
    IB.book { rides := [{ id := 0, driver := 7, availableSeats := 1,
                          price := 100, status := .active }], bookings := [] }
        1 0 (.str "abc") 10 =
      IB.book { rides := [{ id := 0, driver := 7, availableSeats := 1,
                            price := 100, status := .active }], bookings := [] }
        1 0 (.num 1) 10 := by
  have h := c10_seats_coercion (.str "abc") (Or.inl (by decide))
  exact ⟨h.1, h.2 _ 1 0 10⟩

/-- C8 (amended).  The release path of the request-to-book variant: given the
ride is present and was persisted (its validators hold) and the released
count is non-negative, `releaseSeats` increments `availableSeats` by `count`
exactly when the result stays within `totalSeats`, and otherwise rejects the
whole write with an error.  It never clamps, and it never persists an
over-capacity value. -/
theorem c8_amended_release_rejects_instead_of_clamping (db : Db)
    (rideId : Nat) (count : Int) (ride : Ride)
    (hfind : findRide db rideId = some ride)
    (hvalid : rideValidatorsOk ride = true)
    (hcount : 0 ≤ count) :
    releaseSeats db rideId count =
      if ride.availableSeats + count ≤ ride.totalSeats then
        some (putRide db
          { ride with availableSeats := ride.availableSeats + count })
      else none := by
  have step : releaseSeats db rideId count =
      saveRide db { ride with availableSeats := ride.availableSeats + count } := by
    unfold releaseSeats
    rw [hfind]
  rw [step]
  unfold saveRide rideValidatorsOk ridePreSaveOk
  unfold rideValidatorsOk at hvalid
  simp only [Bool.and_eq_true, decide_eq_true_eq] at hvalid
  obtain ⟨⟨⟨⟨hp, ha⟩, ha8⟩, ht1⟩, ht8⟩ := hvalid
  split
  next hcond =>
    simp only [Bool.and_eq_true, decide_eq_true_eq] at hcond
    rw [if_pos hcond.2]
  next hcond =>
    simp only [Bool.and_eq_true, decide_eq_true_eq, not_and] at hcond
    rw [if_neg]
    intro hle
    exact absurd hle (hcond ⟨⟨⟨⟨hp, by omega⟩, by omega⟩, ht1⟩, ht8⟩)

/-- Helper: `find?` commutes with a map that preserves the predicate. -/
theorem find?_map_congr {α : Type} (l : List α) (f : α → α) (p : α → Bool)
    (hf : ∀ a ∈ l, p (f a) = p a) :
    (l.map f).find? p = (l.find? p).map f := by
  induction l with
  | nil => rfl
  | cons a t ih =>
    have ha := hf a (List.mem_cons_self a t)
    by_cases hpa : p a = true
    · rw [List.map_cons,
        List.find?_cons_of_pos _ (by rw [ha]; exact hpa),
        List.find?_cons_of_pos _ hpa]
      rfl
    · have hpa' : p a = false := by revert hpa; cases p a <;> simp
      rw [List.map_cons,
        List.find?_cons_of_neg _ (by rw [ha, hpa']; simp),
        List.find?_cons_of_neg _ (by rw [hpa']; simp)]
      exact ih fun x hx => hf x (List.mem_cons_of_mem a hx)

/-- Helper: `find?` over a list extended with one matching element, when no
earlier element matches. -/
theorem find?_append_fresh {α : Type} (l : List α) (b : α) (p : α → Bool)
    (hl : ∀ x ∈ l, p x = false) (hb : p b = true) :
    (l ++ [b]).find? p = some b := by
  induction l with
  | nil => simp [List.find?, hb]
  | cons a t ih =>
    rw [List.cons_append,
      List.find?_cons_of_neg _ (by rw [hl a (List.mem_cons_self a t)]; simp)]
    exact ih fun x hx => hl x (List.mem_cons_of_mem a hx)

theorem putRide_bookings (db : Db) (r : Ride) :
    (putRide db r).bookings = db.bookings := rfl

theorem putBooking_rides (db : Db) (b : Booking) :
    (putBooking db b).rides = db.rides := rfl

theorem findRide_putRide (db : Db) (r : Ride) (rid : Nat) :
    findRide (putRide db r) rid =
      (findRide db rid).map fun x => if x.id == r.id then r else x := by
  unfold findRide putRide
  exact find?_map_congr _ _ _ (by
    intro a _
    by_cases hx : a.id = r.id <;> simp [hx])

theorem findRide_putBooking (db : Db) (b : Booking) (rid : Nat) :
    findRide (putBooking db b) rid = findRide db rid := rfl

theorem findBooking_putRide (db : Db) (r : Ride) (bid : Nat) :
    findBooking (putRide db r) bid = findBooking db bid := rfl

theorem findBooking_putBooking (db : Db) (b : Booking) (bid : Nat) :
    findBooking (putBooking db b) bid =
      (findBooking db bid).map fun x => if x.id == b.id then b else x := by
  unfold findBooking putBooking
  exact find?_map_congr _ _ _ (by
    intro a _
    by_cases hx : a.id = b.id <;> simp [hx])

theorem ib_findRide_putRide (db : IB.Db) (r : IB.Ride) (rid : Nat) :
    IB.findRide (IB.putRide db r) rid =
      (IB.findRide db rid).map fun x => if x.id == r.id then r else x := by
  unfold IB.findRide IB.putRide
  exact find?_map_congr _ _ _ (by
    intro a _
    by_cases hx : a.id = r.id <;> simp [hx])

theorem ib_findRide_putBooking (db : IB.Db) (b : IB.Booking) (rid : Nat) :
    IB.findRide (IB.putBooking db b) rid = IB.findRide db rid := rfl

/-- Booking validators ignore the status field. -/
theorem bookingValidatorsOk_status (b : Booking) (s : BookingStatus) :
    bookingValidatorsOk { b with status := s } = bookingValidatorsOk b := rfl

/-- Validated bookings request between 1 and 4 seats. -/
theorem seats_bounds_of_valid (b : Booking) (hbv : bookingValidatorsOk b = true) :
    1 ≤ b.seats ∧ b.seats ≤ 4 := by
    unfold bookingValidatorsOk at hbv
    cases hs : b.seatsBooked with
    | none => rw [hs] at hbv; exact absurd hbv (by simp)
    | some s =>
      rw [hs] at hbv
      simp only [Bool.and_eq_true, decide_eq_true_eq] at hbv
      unfold Booking.seats
      rw [hs]
      simpa using ⟨hbv.1.1, hbv.1.2⟩

/-- Helper: full run of a well-formed accept (`PUT /:bookingId/accept`):
booking persisted as `accepted`, ride persisted with the decremented counter,
response 500 (the undefined `User` identifier is evaluated after both
writes). -/
theorem acceptBooking_run (db : Db) (actorId bookingId : Nat)
    (b : Booking) (ride : Ride)
    (hfb : findBooking db bookingId = some b)
    (hfr : findRide db b.rideId = some ride)
    (hdrv : ride.driverId = actorId)
    (hpend : b.status = .pending)
    (hcap : ¬ ride.availableSeats < b.seats)
    (hbv : bookingValidatorsOk b = true)
    (hrv : rideValidatorsOk ride = true)
    (hhook : ridePreSaveOk ride = true) :
    acceptBooking db actorId bookingId =
      (putRide (putBooking db { b with status := .accepted })
        { ride with availableSeats := ride.availableSeats - b.seats },
       some .serverError) := by
  obtain ⟨hs1, hs4⟩ := seats_bounds_of_valid b hbv
  have hrv' := hrv
  unfold rideValidatorsOk at hrv'
  simp only [Bool.and_eq_true, decide_eq_true_eq] at hrv'
  obtain ⟨⟨⟨⟨hp, ha⟩, ha8⟩, ht1⟩, ht8⟩ := hrv'
  have hhook' : ride.availableSeats ≤ ride.totalSeats := by
    unfold ridePreSaveOk at hhook
    simpa using hhook
  have hbid : (b.id == bookingId) = true := by
    have := List.find?_some hfb
    simpa using this
  have hrid : (ride.id == b.rideId) = true := by
    have := List.find?_some hfr
    simpa using this
  -- the two successful saves
  have hsave1 : saveBookingUpdate db { b with status := .accepted } =
      some (putBooking db { b with status := .accepted }) := by
    unfold saveBookingUpdate
    rw [bookingValidatorsOk_status, hbv]
    rfl
  have hsave2 : saveRide (putBooking db { b with status := .accepted })
      { ride with availableSeats := ride.availableSeats - b.seats } =
      some (putRide (putBooking db { b with status := .accepted })
        { ride with availableSeats := ride.availableSeats - b.seats }) := by
    unfold saveRide
    split
    · rfl
    next h =>
      exfalso
      apply h
      unfold rideValidatorsOk ridePreSaveOk
      simp only [Bool.and_eq_true, decide_eq_true_eq]
      exact ⟨⟨⟨⟨⟨hp, by omega⟩, by omega⟩, ht1⟩, ht8⟩, by omega⟩
  have hdb : (ride.driverId == actorId) = true := by simp [hdrv]
  have hpb : (b.status == BookingStatus.pending) = true := by simp [hpend]
  unfold acceptBooking
  simp only [hfb, hfr, hdb, hpb, hsave1, hsave2, Bool.not_true,
    Bool.false_eq_true, if_false, hcap, decide_eq_true_eq, ite_false]

/-- C4 (amended).  When the ride's driver accepts a pending booking and
enough seats remain, the persisted outcome is: the booking becomes
`accepted` AND the ride's `availableSeats` decreases by `seatsBooked` — in
this variant seats are reserved at acceptance, not at creation (and the
response is nevertheless the 500 caused by the undefined `User`
identifier). -/
theorem c4_amended_accept_decrements (db : Db) (actorId bookingId : Nat)
    (b : Booking) (ride : Ride)
    (hfb : findBooking db bookingId = some b)
    (hfr : findRide db b.rideId = some ride)
    (hdrv : ride.driverId = actorId)
    (hpend : b.status = .pending)
    (hcap : ¬ ride.availableSeats < b.seats)
    (hbv : bookingValidatorsOk b = true)
    (hrv : rideValidatorsOk ride = true)
    (hhook : ridePreSaveOk ride = true) :
    (acceptBooking db actorId bookingId).2 = some .serverError ∧
    availOf (acceptBooking db actorId bookingId).1 b.rideId =
      some (ride.availableSeats - b.seats) ∧
    (findBooking (acceptBooking db actorId bookingId).1 bookingId).map
      (·.status) = some .accepted := by
  have hrun := acceptBooking_run db actorId bookingId b ride hfb hfr hdrv
    hpend hcap hbv hrv hhook
  refine ⟨by rw [hrun], ?_, ?_⟩
  · rw [hrun]
    unfold availOf
    unfold findRide putRide
    rw [show (putBooking db { b with status := .accepted }).rides = db.rides
        from rfl]
    rw [find?_map_congr _ _ _ ?_]
    · rw [show db.rides.find? (fun r => r.id == b.rideId) = some ride from hfr]
      simp
    · intro a _
      by_cases hx : a.id = ride.id <;> simp [hx]
  · rw [hrun]
    unfold findBooking putRide putBooking
    rw [find?_map_congr _ _ _ ?_]
    · rw [show db.bookings.find? (fun x => x.id == bookingId) = some b from hfb]
      simp
    · intro a _
      by_cases hx : a.id = b.id <;> simp [hx]

/-- Helper: full run of a cancel whose booking did not hold seats
(previous status not `accepted`): only the booking write happens. -/
theorem cancelBooking_run_noseat (db : Db) (actorId bookingId : Nat)
    (b : Booking)
    (hfb : findBooking db bookingId = some b)
    (hpa : b.passengerId = actorId)
    (hnc : b.status ≠ .cancelled)
    (hna : b.status ≠ .accepted)
    (hbv : bookingValidatorsOk b = true) :
    cancelBooking db actorId bookingId =
      (putBooking db { b with status := .cancelled }, none) := by
  have hpb : (b.passengerId == actorId) = true := by simp [hpa]
  have hcb : (b.status == BookingStatus.cancelled) = false := by
    simpa using hnc
  have hab : (b.status == BookingStatus.accepted) = false := by
    simpa using hna
  have hsave1 : saveBookingUpdate db { b with status := .cancelled } =
      some (putBooking db { b with status := .cancelled }) := by
    unfold saveBookingUpdate
    rw [bookingValidatorsOk_status, hbv]
    rfl
  unfold cancelBooking
  simp only [hfb, hpb, hcb, hab, hsave1, Bool.not_true, Bool.false_eq_true,
    if_false, ite_false]

/-- Helper: full run of a cancel of an `accepted` booking: booking persisted
as `cancelled`, seats added back and persisted through the hook-guarded
`save()` (the `hok` components are exactly what makes that save pass). -/
theorem cancelBooking_run_accepted (db : Db) (actorId bookingId : Nat)
    (b : Booking) (r : Ride)
    (hfb : findBooking db bookingId = some b)
    (hpa : b.passengerId = actorId)
    (hacc : b.status = .accepted)
    (hfr : findRide db b.rideId = some r)
    (hbv : bookingValidatorsOk b = true)
    (hok : 0 ≤ r.pricePerSeat ∧ 0 ≤ r.availableSeats + b.seats ∧
      r.availableSeats + b.seats ≤ 8 ∧ 1 ≤ r.totalSeats ∧ r.totalSeats ≤ 8 ∧
      r.availableSeats + b.seats ≤ r.totalSeats) :
    cancelBooking db actorId bookingId =
      (putRide (putBooking db { b with status := .cancelled })
        { r with availableSeats := r.availableSeats + b.seats }, none) := by
  have hpb : (b.passengerId == actorId) = true := by simp [hpa]
  have hcb : (b.status == BookingStatus.cancelled) = false := by
    simp [hacc]
  have hab : (b.status == BookingStatus.accepted) = true := by simp [hacc]
  have hsave1 : saveBookingUpdate db { b with status := .cancelled } =
      some (putBooking db { b with status := .cancelled }) := by
    unfold saveBookingUpdate
    rw [bookingValidatorsOk_status, hbv]
    rfl
  have hsave2 : saveRide (putBooking db { b with status := .cancelled })
      { r with availableSeats := r.availableSeats + b.seats } =
      some (putRide (putBooking db { b with status := .cancelled })
        { r with availableSeats := r.availableSeats + b.seats }) := by
    unfold saveRide
    split
    · rfl
    next h =>
      exfalso
      apply h
      unfold rideValidatorsOk ridePreSaveOk
      simp only [Bool.and_eq_true, decide_eq_true_eq]
      exact ⟨⟨⟨⟨⟨hok.1, hok.2.1⟩, hok.2.2.1⟩, hok.2.2.2.1⟩, hok.2.2.2.2.1⟩,
        hok.2.2.2.2.2⟩
  unfold cancelBooking
  simp only [hfb, hpb, hcb, hab, hsave1, hfr, hsave2, Bool.not_true,
    Bool.false_eq_true, if_false, if_true, ite_false]

/-- Helper: full run of a successful request-to-book create: the pending
booking is appended, the ride untouched. -/
theorem createBooking_run_success (db : Db) (p rid : Nat) (s : Int)
    (m : String) (nid : Nat) (ride : Ride)
    (hfr : findRide db rid = some ride)
    (hs0 : s ≠ 0)
    (hdrv : ride.driverId ≠ p)
    (hcap : ¬ride.availableSeats < s)
    (hnopair : ∀ x ∈ db.bookings, ¬(x.rideId = rid ∧ x.passengerId = p))
    (hs1 : 1 ≤ s) (hs4 : s ≤ 4)
    (hprice : 0 ≤ ride.pricePerSeat) :
    createBooking db p rid s m nid =
      ({ db with bookings := db.bookings ++
          [{ id := nid, rideId := rid, passengerId := p,
             seatsBooked := some s, status := .pending, message := m,
             totalAmount := ride.pricePerSeat * s,
             paymentStatus := .pending }] }, none) := by
  have hsb : (s == 0) = false := by simpa using hs0
  have hdb : (ride.driverId == p) = false := by simpa using hdrv
  have hcapb : decide (ride.availableSeats < s) = false := by
    simpa using hcap
  have hdup : (db.bookings.any fun b =>
      b.rideId == rid && b.passengerId == p &&
      !(b.status == BookingStatus.cancelled) &&
      !(b.status == BookingStatus.declined)) = false := by
    rw [List.any_eq_false]
    intro x hx
    have h := hnopair x hx
    simp only [Bool.and_eq_true, beq_iff_eq, not_and]
    intro h1
    exact fun h2 => absurd ⟨h1.1.1, h1.1.2⟩ h
  have hins : insertBooking db
      { id := nid, rideId := rid, passengerId := p, seatsBooked := some s,
        status := .pending, message := m,
        totalAmount := ride.pricePerSeat * s, paymentStatus := .pending } =
      some ({ db with bookings := db.bookings ++
        [{ id := nid, rideId := rid, passengerId := p,
           seatsBooked := some s, status := .pending, message := m,
           totalAmount := ride.pricePerSeat * s,
           paymentStatus := .pending }] }) := by
    unfold insertBooking
    rw [if_pos]
    unfold bookingValidatorsOk uniqueIndexOk
    simp only [Bool.and_eq_true, decide_eq_true_eq, List.all_eq_true]
    refine ⟨⟨⟨hs1, hs4⟩, mul_nonneg hprice (by omega)⟩, ?_⟩
    intro x hx
    have h := hnopair x hx
    simp only [Bool.not_eq_true', Bool.and_eq_false_iff,
      beq_eq_false_iff_ne, ne_eq]
    by_cases h1 : x.rideId = rid
    · right
      exact fun h2 => absurd ⟨h1, h2⟩ h
    · left
      exact h1
  unfold createBooking
  simp only [hsb, Bool.false_eq_true, if_false, hfr, hdb, hcapb, hdup,
    hins, Bool.not_true, if_true]

/-- Helper: `POST /:rideId/book` of `src/routes/rides.js` never succeeds and
never mutates the store: the document it builds lacks the required
`seatsBooked` path (the body field is `seats`), so `booking.save()` always
fails validation, before the seat decrement is reached. -/
theorem ridesJsBook_never_succeeds (db : Db) (p rid : Nat) (s : Int)
    (nid : Nat) :
    (ridesJsBook db p rid s nid).1 = db ∧
    (ridesJsBook db p rid s nid).2 ≠ none := by
  unfold ridesJsBook
  split
  · exact ⟨rfl, by simp⟩
  split
  · exact ⟨rfl, by simp⟩
  split
  · exact ⟨rfl, by simp⟩
  split
  · exact ⟨rfl, by simp⟩
  split
  · exact ⟨rfl, by simp⟩
  split
  · exact ⟨rfl, by simp⟩
  dsimp only
  split
  · exact ⟨rfl, by simp⟩
  next db1 heq =>
    exfalso
    unfold insertBooking bookingValidatorsOk at heq
    simp at heq

/-- Helper: full run of an instant-book cancel on a live `booked` booking
whose ride exists: the `$inc` seat restore persists unconditionally, then the
booking is persisted as `cancelled`. -/
theorem ib_cancel_run (db : IB.Db) (actorId bookingId : Nat)
    (b : IB.Booking) (r : IB.Ride)
    (hfb : db.bookings.find? (fun x => x.id == bookingId) = some b)
    (hbk : b.status = .booked)
    (hpa : b.passenger = actorId)
    (hfr : IB.findRide db b.ride = some r) :
    IB.cancel db actorId bookingId =
      (IB.putBooking
        (IB.putRide db
          { r with availableSeats := r.availableSeats + b.seatsBooked })
        { b with status := .cancelled }, none) := by
  have hkb : (b.status == IB.BookedStatus.booked) = true := by simp [hbk]
  have hpb : (b.passenger == actorId) = true := by simp [hpa]
  unfold IB.cancel
  simp only [hfb, hkb, hpb, hfr, Bool.not_true, Bool.false_eq_true, if_false,
    ite_false]

/-- C4 amended witness: on Scenario A (4 free seats, pending 2-seat booking
10), the accept persists `accepted` and availableSeats 2. -/
theorem c4_amended_accept_decrements_witness :
    (acceptBooking dbB 7 10).2 = some .serverError ∧
    availOf (acceptBooking dbB 7 10).1 0 = some 2 ∧
    (findBooking (acceptBooking dbB 7 10).1 10).map (·.status) =
      some .accepted :=
  c4_amended_accept_decrements dbB 7 10
    { id := 10, rideId := 0, passengerId := 1, seatsBooked := some 2,
      status := .pending, message := "", totalAmount := 1000,
      paymentStatus := .pending }
    rideA (by decide) (by decide) (by decide) (by decide) (by decide)
    (by decide) (by decide) (by decide)

/-- Helper: one instant-book request, fully characterised.  When the ride
exists, is active, and the passenger has no live `booked` booking on it, the
request reserves-and-books exactly when the coerced seat count fits, and
otherwise fails with the merged insufficient-capacity 404, touching
nothing. -/
theorem ib_book_characterization (db : IB.Db) (ride : IB.Ride)
    (p rid nid : Nat) (v : IB.JsVal)
    (hfr : IB.findRide db rid = some ride)
    (hact : ride.status = .active)
    (hno : ∀ b ∈ db.bookings,
      ¬(b.ride = rid ∧ b.passenger = p ∧ b.status = .booked)) :
    IB.book db p rid v nid =
      if IB.seatsRequested v ≤ ride.availableSeats then
        ({ rides := db.rides.map fun x =>
             if x.id == ride.id then
               { ride with
                 availableSeats := ride.availableSeats - IB.seatsRequested v }
             else x,
           bookings := db.bookings ++
             [{ id := nid, ride := rid, passenger := p,
                seatsBooked := IB.seatsRequested v, status := .booked }] },
         none)
      else (db, some .reserveFailed) := by
  have hany : (db.bookings.any fun b =>
      b.ride == rid && b.passenger == p &&
      b.status == IB.BookedStatus.booked) = false := by
    rw [List.any_eq_false]
    intro x hx
    have h := hno x hx
    simp only [Bool.and_eq_true, beq_iff_eq]
    tauto
  unfold IB.book IB.reserveSeats
  simp only [hany, Bool.false_eq_true, if_false, hfr, hact, beq_self_eq_true,
    Bool.not_true, Bool.true_and]
  by_cases hc : IB.seatsRequested v ≤ ride.availableSeats
  · rw [if_pos hc, if_pos (by simpa using hc)]
    rfl
  · rw [if_neg hc, if_neg (by simpa using hc)]

/-- C2 (amended).  The race property holds for the instant-book route
(`POST /book/:rideId` in `src/routes/ride.js`), whose seat check and
decrement are the single conditional `findOneAndUpdate`: with one seat left
and two concurrent 1-seat requests from distinct passengers, in either order
of the two atomic reservation steps — each request's only store write, so
every interleaving is outcome-equivalent to one of the two orders — exactly
one request succeeds and the other fails with the (merged 404)
insufficient-capacity error.  (The request-to-book `createBooking` of
`src/routes/bookings.js` does not have this property: it performs no
decrement at all, see the counterexample.) -/
theorem c2_amended_instant_book_race (db : IB.Db) (ride : IB.Ride)
    (pA pB rideId idA idB : Nat) (vA vB : IB.JsVal)
    (hfr : IB.findRide db rideId = some ride)
    (hact : ride.status = .active)
    (havail : ride.availableSeats = 1)
    (hvA : IB.seatsRequested vA = 1)
    (hvB : IB.seatsRequested vB = 1)
    (hne : pA ≠ pB)
    (hnoA : ∀ b ∈ db.bookings,
      ¬(b.ride = rideId ∧ b.passenger = pA ∧ b.status = .booked))
    (hnoB : ∀ b ∈ db.bookings,
      ¬(b.ride = rideId ∧ b.passenger = pB ∧ b.status = .booked)) :
    ∀ firstIsA : Bool,
      ((IB.racePair db firstIsA pA pB rideId vA vB idA idB).2.1 = none ∧
        (IB.racePair db firstIsA pA pB rideId vA vB idA idB).2.2 =
          some .reserveFailed) ∨
      ((IB.racePair db firstIsA pA pB rideId vA vB idA idB).2.1 =
          some .reserveFailed ∧
        (IB.racePair db firstIsA pA pB rideId vA vB idA idB).2.2 = none) := by
  have main : ∀ (p q : Nat) (vP vQ : IB.JsVal) (idP idQ : Nat),
      p ≠ q →
      IB.seatsRequested vP = 1 → IB.seatsRequested vQ = 1 →
      (∀ b ∈ db.bookings,
        ¬(b.ride = rideId ∧ b.passenger = p ∧ b.status = .booked)) →
      (∀ b ∈ db.bookings,
        ¬(b.ride = rideId ∧ b.passenger = q ∧ b.status = .booked)) →
      (IB.book db p rideId vP idP).2 = none ∧
      (IB.book (IB.book db p rideId vP idP).1 q rideId vQ idQ).2 =
        some .reserveFailed := by
    intro p q vP vQ idP idQ hpq hvP hvQ hnoP hnoQ
    have h1 := ib_book_characterization db ride p rideId idP vP hfr hact hnoP
    rw [if_pos (by rw [hvP, havail])] at h1
    set ride1 : IB.Ride := { ride with availableSeats := ride.availableSeats - 1 }
    have h1' : IB.book db p rideId vP idP =
        ({ rides := db.rides.map fun x => if x.id == ride.id then ride1 else x,
           bookings := db.bookings ++
             [{ id := idP, ride := rideId, passenger := p,
                seatsBooked := 1, status := .booked }] }, none) := by
      rw [h1, hvP]
    set db1 : IB.Db :=
      { rides := db.rides.map fun x => if x.id == ride.id then ride1 else x,
        bookings := db.bookings ++
          [{ id := idP, ride := rideId, passenger := p,
             seatsBooked := 1, status := .booked }] }
    have hfr1 : IB.findRide db1 rideId = some ride1 := by
      unfold IB.findRide
      show (db.rides.map fun x => if x.id == ride.id then ride1 else x).find?
          (fun r => r.id == rideId) = some ride1
      rw [find?_map_congr _ _ _ (by
        intro a _
        by_cases hx : a.id = ride.id <;> simp [hx])]
      rw [show db.rides.find? (fun r => r.id == rideId) = some ride from hfr]
      simp
    have hno1 : ∀ b ∈ db1.bookings,
        ¬(b.ride = rideId ∧ b.passenger = q ∧ b.status = .booked) := by
      intro b hb
      rcases List.mem_append.mp hb with hb | hb
      · exact hnoQ b hb
      · rcases List.mem_singleton.mp hb with rfl
        intro hcon
        have hpe : p = q := by simpa using hcon.2.1
        exact hpq hpe
    have h2 := ib_book_characterization db1 ride1 q rideId idQ vQ hfr1
      (by simpa using hact) hno1
    rw [if_neg (by
      rw [hvQ]
      show ¬(1 : Int) ≤ ride.availableSeats - 1
      omega)] at h2
    refine ⟨by rw [h1'], ?_⟩
    rw [h1', h2]
  intro firstIsA
  cases firstIsA with
  | true =>
    left
    have h := main pA pB vA vB idA idB hne hvA hvB hnoA hnoB
    unfold IB.racePair
    simp only [if_true]
    exact ⟨h.1, h.2⟩
  | false =>
    right
    have h := main pB pA vB vA idB idA (fun e => hne e.symm) hvB hvA hnoB hnoA
    unfold IB.racePair
    simp only [Bool.false_eq_true, if_false]
    exact ⟨h.2, h.1⟩

/-- Concrete last-seat ride of Scenario B (instant-book variant). -/
def oneSeatRide : IB.Ride :=
  { id := 0, driver := 7, availableSeats := 1, price := 100, status := .active }

/-- Store holding only `oneSeatRide`. -/
def oneSeatDb : IB.Db := { rides := [oneSeatRide], bookings := [] }

/-- C2 amended witness: the concrete one-seat active ride, passengers 1 and
2, schedule with passenger 1 first. -/
theorem c2_amended_instant_book_race_witness :
    ((IB.racePair oneSeatDb true 1 2 0 (.num 1) (.num 1) 10 11).2.1 = none ∧
      (IB.racePair oneSeatDb true 1 2 0 (.num 1) (.num 1) 10 11).2.2 =
        some .reserveFailed) ∨
    ((IB.racePair oneSeatDb true 1 2 0 (.num 1) (.num 1) 10 11).2.1 =
        some .reserveFailed ∧
      (IB.racePair oneSeatDb true 1 2 0 (.num 1) (.num 1) 10 11).2.2 =
        none) :=
  c2_amended_instant_book_race oneSeatDb oneSeatRide
    1 2 0 10 11 (.num 1) (.num 1)
    (by decide) (by decide) (by decide) (by decide) (by decide) (by decide)
    (by intro b hb; cases hb) (by intro b hb; cases hb) true

/-- The claim C1 bounds for one ride. -/
def rideBoundsOk (r : Ride) : Prop :=
  0 ≤ r.availableSeats ∧ r.availableSeats ≤ r.totalSeats

/-- The claim C1 bounds for every persisted ride. -/
def dbRideBoundsOk (db : Db) : Prop := ∀ r ∈ db.rides, rideBoundsOk r

instance (r : Ride) : Decidable (rideBoundsOk r) := by
  unfold rideBoundsOk
  infer_instance

instance (db : Db) : Decidable (dbRideBoundsOk db) := by
  unfold dbRideBoundsOk
  infer_instance

/-- Any ride write that goes through `save()` keeps all persisted rides in
bounds: the validators give `0 ≤ availableSeats` and the pre-save hook gives
`availableSeats ≤ totalSeats`. -/
theorem saveRide_bounds (db : Db) (r : Ride) (db1 : Db)
    (h : saveRide db r = some db1) (hdb : dbRideBoundsOk db) :
    dbRideBoundsOk db1 := by
  unfold saveRide at h
  split at h
  · next hcond =>
    injection h with h
    subst h
    intro x hx
    unfold putRide at hx
    simp only [List.mem_map] at hx
    obtain ⟨y, hy, rfl⟩ := hx
    by_cases hid : (y.id == r.id) = true
    · simp only [hid, if_true]
      unfold rideValidatorsOk ridePreSaveOk at hcond
      simp only [Bool.and_eq_true, decide_eq_true_eq] at hcond
      exact ⟨hcond.1.1.1.1.2, hcond.2⟩
    · simp only [hid, if_false]
      exact hdb y hy
  · exact absurd h (by simp)

theorem insertBooking_rides (db : Db) (b : Booking) (db1 : Db)
    (h : insertBooking db b = some db1) : db1.rides = db.rides := by
  unfold insertBooking at h
  split at h
  · injection h with h
    rw [← h]
  · exact absurd h (by simp)

theorem saveBookingUpdate_rides (db : Db) (b : Booking) (db1 : Db)
    (h : saveBookingUpdate db b = some db1) : db1.rides = db.rides := by
  unfold saveBookingUpdate at h
  split at h
  · injection h with h
    subst h
    rfl
  · exact absurd h (by simp)

theorem createBooking_preserves_rideBounds (db : Db)
    (p rid : Nat) (s : Int) (m : String) (nid : Nat)
    (h : dbRideBoundsOk db) :
    dbRideBoundsOk (createBooking db p rid s m nid).1 := by
  unfold createBooking
  split
  · exact h
  split
  · exact h
  split
  · exact h
  split
  · exact h
  split
  · exact h
  dsimp only
  split
  · exact h
  next db1 heq =>
    intro x hx
    rw [insertBooking_rides _ _ _ heq] at hx
    exact h x hx

theorem acceptBooking_preserves_rideBounds (db : Db) (a bid : Nat)
    (h : dbRideBoundsOk db) :
    dbRideBoundsOk (acceptBooking db a bid).1 := by
  unfold acceptBooking
  split
  · exact h
  split
  · exact h
  split
  · exact h
  split
  · exact h
  split
  · exact h
  split
  · exact h
  next db1 heq1 =>
    have hdb1 : dbRideBoundsOk db1 := by
      intro x hx
      rw [saveBookingUpdate_rides _ _ _ heq1] at hx
      exact h x hx
    split
    · exact hdb1
    next db2 heq2 =>
      exact saveRide_bounds _ _ _ heq2 hdb1

theorem declineBooking_preserves_rideBounds (db : Db) (a bid : Nat)
    (h : dbRideBoundsOk db) :
    dbRideBoundsOk (declineBooking db a bid).1 := by
  unfold declineBooking
  split
  · exact h
  split
  · exact h
  split
  · exact h
  split
  · exact h
  split
  · exact h
  next db1 heq1 =>
    intro x hx
    rw [saveBookingUpdate_rides _ _ _ heq1] at hx
    exact h x hx

theorem cancelBooking_preserves_rideBounds (db : Db) (a bid : Nat)
    (h : dbRideBoundsOk db) :
    dbRideBoundsOk (cancelBooking db a bid).1 := by
  unfold cancelBooking
  split
  · exact h
  split
  · exact h
  split
  · exact h
  split
  · exact h
  next db1 heq1 =>
    have hdb1 : dbRideBoundsOk db1 := by
      intro x hx
      rw [saveBookingUpdate_rides _ _ _ heq1] at hx
      exact h x hx
    split
    · split
      · exact hdb1
      · split
        · exact hdb1
        next db2 heq2 =>
          exact saveRide_bounds _ _ _ heq2 hdb1
    · exact hdb1

theorem ridesJsBook_preserves_rideBounds (db : Db)
    (p rid : Nat) (s : Int) (nid : Nat)
    (h : dbRideBoundsOk db) :
    dbRideBoundsOk (ridesJsBook db p rid s nid).1 := by
  unfold ridesJsBook
  split
  · exact h
  split
  · exact h
  split
  · exact h
  split
  · exact h
  split
  · exact h
  split
  · exact h
  dsimp only
  split
  · exact h
  next db1 heq1 =>
    have hdb1 : dbRideBoundsOk db1 := by
      intro x hx
      rw [insertBooking_rides _ _ _ heq1] at hx
      exact h x hx
    split
    · exact hdb1
    next db2 heq2 =>
      exact saveRide_bounds _ _ _ heq2 hdb1

theorem cancelRide_preserves_rideBounds (db : Db) (a rid : Nat)
    (h : dbRideBoundsOk db) :
    dbRideBoundsOk (cancelRide db a rid).1 := by
  unfold cancelRide
  split
  · exact h
  next ride hr =>
    have hdb1 : dbRideBoundsOk
        { db with bookings := db.bookings.map fun b =>
            if ride.bookingRefs.contains b.id then
              { b with status := .cancelled }
            else b } := by
      intro x hx
      exact h x hx
    dsimp only
    split
    · exact hdb1
    next db2 heq2 =>
      exact saveRide_bounds _ _ _ heq2 hdb1

/-- C1.  Starting from a store whose rides all satisfy
`0 ≤ availableSeats ≤ totalSeats`, every core operation of the
request-to-book subsystem — createBooking, acceptBooking, declineBooking,
cancelBooking, the rides.js booking route, cancelRide, and the seat-release
step — leaves every persisted ride inside those bounds: a violating ride
state is never persisted, because every ride write of this subsystem goes
through `save()`, whose validators enforce the lower bound and whose pre-save
hook enforces the upper bound.  (The instant-book variant's ES-module Ride
schema has no `totalSeats` field at all, so the claim's bounds are only
expressible here.) -/
theorem c1_seat_bounds_preserved (db : Db) (h : dbRideBoundsOk db) :
    (∀ (p rid : Nat) (s : Int) (m : String) (nid : Nat),
      dbRideBoundsOk (createBooking db p rid s m nid).1) ∧
    (∀ a bid : Nat, dbRideBoundsOk (acceptBooking db a bid).1) ∧
    (∀ a bid : Nat, dbRideBoundsOk (declineBooking db a bid).1) ∧
    (∀ a bid : Nat, dbRideBoundsOk (cancelBooking db a bid).1) ∧
    (∀ (p rid : Nat) (s : Int) (nid : Nat),
      dbRideBoundsOk (ridesJsBook db p rid s nid).1) ∧
    (∀ a rid : Nat, dbRideBoundsOk (cancelRide db a rid).1) ∧
    (∀ (rid : Nat) (c : Int) (db1 : Db),
      releaseSeats db rid c = some db1 → dbRideBoundsOk db1) := by
  refine ⟨fun p rid s m nid => createBooking_preserves_rideBounds db p rid s m nid h,
    fun a bid => acceptBooking_preserves_rideBounds db a bid h,
    fun a bid => declineBooking_preserves_rideBounds db a bid h,
    fun a bid => cancelBooking_preserves_rideBounds db a bid h,
    fun p rid s nid => ridesJsBook_preserves_rideBounds db p rid s nid h,
    fun a rid => cancelRide_preserves_rideBounds db a rid h,
    fun rid c db1 hrel => ?_⟩
  unfold releaseSeats at hrel
  split at hrel
  · exact absurd hrel (by simp)
  · exact saveRide_bounds _ _ _ hrel h

/-- C1 witness: the Scenario A store is in bounds and stays in bounds after
the accept (the operation that mutates the counter). -/
theorem c1_seat_bounds_preserved_witness :
    dbRideBoundsOk dbB ∧ dbRideBoundsOk (acceptBooking dbB 7 10).1 :=
  ⟨by decide, (c1_seat_bounds_preserved dbB (by decide)).2.1 7 10⟩

/-- At most one booking per (rideId, passengerId) pair — what the
unconditional unique index actually maintains. -/
def pairUnique (db : Db) : Prop :=
  db.bookings.Pairwise fun a b =>
    ¬(a.rideId = b.rideId ∧ a.passengerId = b.passengerId)

instance (db : Db) : Decidable (pairUnique db) := by
  unfold pairUnique
  exact List.instDecidablePairwise _

/-- Replacing a stored booking by one with the same id and the same
(rideId, passengerId) pair keeps the pair-uniqueness invariant. -/
theorem pairUnique_putBooking (db : Db) (b b1 : Booking)
    (hnd : (db.bookings.map (·.id)).Nodup)
    (hb : b ∈ db.bookings) (hid : b1.id = b.id)
    (hride : b1.rideId = b.rideId) (hpass : b1.passengerId = b.passengerId)
    (hpu : pairUnique db) : pairUnique (putBooking db b1) := by
  unfold pairUnique putBooking
  show (db.bookings.map fun x => if x.id == b1.id then b1 else x).Pairwise _
  rw [List.pairwise_map]
  refine hpu.imp_of_mem ?_
  intro x y hx hy hxy
  have hfx : (if x.id == b1.id then b1 else x).rideId = x.rideId ∧
      (if x.id == b1.id then b1 else x).passengerId = x.passengerId := by
    by_cases hxb : (x.id == b1.id) = true
    · have hxe : x = b := List.inj_on_of_nodup_map hnd hx hb
        (by simpa [hid] using hxb)
      simp [hxb, hxe, hid, hride, hpass]
    · simp [hxb]
  have hfy : (if y.id == b1.id then b1 else y).rideId = y.rideId ∧
      (if y.id == b1.id then b1 else y).passengerId = y.passengerId := by
    by_cases hyb : (y.id == b1.id) = true
    · have hye : y = b := List.inj_on_of_nodup_map hnd hy hb
        (by simpa [hid] using hyb)
      simp [hyb, hye, hid, hride, hpass]
    · simp [hyb]
  rw [hfx.1, hfx.2, hfy.1, hfy.2]
  exact hxy

/-- C7 (amended).  The unique index on (rideId, passengerId) is NOT scoped to
an active predicate: the store maintains at most one booking per pair in ANY
status, and every booking-lifecycle operation preserves that (so at most one
active booking per pair, as the claim says).  A second createBooking while an
active booking exists fails with DuplicateBooking, as claimed; but a
passenger whose earlier booking on the ride was cancelled or declined ALSO
cannot create a new booking: the application-level check passes and the
insert is then rejected by the unique index (surfaced as the catch-all 500),
leaving the store unchanged. -/
theorem c7_amended_pair_uniqueness (db : Db)
    (hnd : (db.bookings.map (·.id)).Nodup) (hpu : pairUnique db) :
    (∀ (p rid : Nat) (s : Int) (m : String) (nid : Nat),
      pairUnique (createBooking db p rid s m nid).1) ∧
    (∀ a bid : Nat, pairUnique (acceptBooking db a bid).1) ∧
    (∀ a bid : Nat, pairUnique (declineBooking db a bid).1) ∧
    (∀ a bid : Nat, pairUnique (cancelBooking db a bid).1) ∧
    (∀ (p rid : Nat) (s : Int) (m : String) (nid : Nat) (ride : Ride),
      s ≠ 0 → findRide db rid = some ride → ride.driverId ≠ p →
      ¬ride.availableSeats < s →
      (∃ x ∈ db.bookings, x.rideId = rid ∧ x.passengerId = p ∧
        x.status ≠ .cancelled ∧ x.status ≠ .declined) →
      createBooking db p rid s m nid = (db, some .duplicateBooking)) ∧
    (∀ (p rid : Nat) (s : Int) (m : String) (nid : Nat) (ride : Ride),
      s ≠ 0 → findRide db rid = some ride → ride.driverId ≠ p →
      ¬ride.availableSeats < s →
      (∀ x ∈ db.bookings, x.rideId = rid → x.passengerId = p →
        (x.status = .cancelled ∨ x.status = .declined)) →
      (∃ x ∈ db.bookings, x.rideId = rid ∧ x.passengerId = p) →
      createBooking db p rid s m nid = (db, some .serverError)) := by
  have hput : ∀ (bid : Nat) (b : Booking) (st : BookingStatus),
      findBooking db bid = some b →
      pairUnique (putBooking db { b with status := st }) := by
    intro bid b st hfb
    exact pairUnique_putBooking db b _ hnd
      (List.mem_of_find?_eq_some hfb) rfl rfl rfl hpu
  have hputP : ∀ (db1 : Db) (r : Ride), pairUnique db1 →
      pairUnique (putRide db1 r) := by
    intro db1 r h1
    exact h1
  refine ⟨?_, ?_, ?_, ?_, ?_, ?_⟩
  · intro p rid s m nid
    unfold createBooking
    split
    · exact hpu
    split
    · exact hpu
    split
    · exact hpu
    split
    · exact hpu
    split
    · exact hpu
    dsimp only
    split
    · exact hpu
    next db1 heq =>
      unfold insertBooking at heq
      split at heq
      · next hcond =>
        injection heq with heq
        subst heq
        unfold pairUnique
        rw [List.pairwise_append]
        refine ⟨hpu, by simp, ?_⟩
        intro x hx y hy
        rcases List.mem_singleton.mp hy with rfl
        simp only [Bool.and_eq_true] at hcond
        have hall := hcond.2
        unfold uniqueIndexOk at hall
        rw [List.all_eq_true] at hall
        have := hall x hx
        simp only [Bool.not_eq_true', Bool.and_eq_false_iff, beq_eq_false_iff_ne,
          ne_eq] at this
        intro hcon
        rcases this with h | h
        · exact h hcon.1
        · exact h hcon.2
      · exact absurd heq (by simp)
  · intro a bid
    unfold acceptBooking
    split
    · exact hpu
    next b hfb =>
      split
      · exact hpu
      split
      · exact hpu
      split
      · exact hpu
      split
      · exact hpu
      split
      · exact hpu
      next db1 heq1 =>
        have hdb1 : pairUnique db1 := by
          unfold saveBookingUpdate at heq1
          split at heq1
          · injection heq1 with heq1
            subst heq1
            exact hput bid b _ hfb
          · exact absurd heq1 (by simp)
        split
        · exact hdb1
        next db2 heq2 =>
          unfold saveRide at heq2
          split at heq2
          · injection heq2 with heq2
            subst heq2
            exact hdb1
          · exact absurd heq2 (by simp)
  · intro a bid
    unfold declineBooking
    split
    · exact hpu
    next b hfb =>
      split
      · exact hpu
      split
      · exact hpu
      split
      · exact hpu
      split
      · exact hpu
      next db1 heq1 =>
        unfold saveBookingUpdate at heq1
        split at heq1
        · injection heq1 with heq1
          subst heq1
          exact hput bid b _ hfb
        · exact absurd heq1 (by simp)
  · intro a bid
    unfold cancelBooking
    split
    · exact hpu
    next b hfb =>
      split
      · exact hpu
      split
      · exact hpu
      split
      · exact hpu
      next db1 heq1 =>
        have hdb1 : pairUnique db1 := by
          unfold saveBookingUpdate at heq1
          split at heq1
          · injection heq1 with heq1
            subst heq1
            exact hput bid b _ hfb
          · exact absurd heq1 (by simp)
        split
        · split
          · exact hdb1
          · split
            · exact hdb1
            next db2 heq2 =>
              unfold saveRide at heq2
              split at heq2
              · injection heq2 with heq2
                subst heq2
                exact hdb1
              · exact absurd heq2 (by simp)
        · exact hdb1
  · intro p rid s m nid ride hs hfr hdrv hcap hex
    have hsb : (s == 0) = false := by simpa using hs
    have hdb : (ride.driverId == p) = false := by simpa using hdrv
    have hcapb : decide (ride.availableSeats < s) = false := by
      simpa using hcap
    have hdup : (db.bookings.any fun b =>
        b.rideId == rid && b.passengerId == p &&
        !(b.status == BookingStatus.cancelled) &&
        !(b.status == BookingStatus.declined)) = true := by
      rw [List.any_eq_true]
      obtain ⟨x, hx, hx1, hx2, hx3, hx4⟩ := hex
      refine ⟨x, hx, ?_⟩
      simp only [Bool.and_eq_true, beq_iff_eq, Bool.not_eq_true',
        beq_eq_false_iff_ne, ne_eq]
      exact ⟨⟨⟨hx1, hx2⟩, hx3⟩, hx4⟩
    unfold createBooking
    simp only [hsb, Bool.false_eq_true, if_false, hfr, hdb, hcapb, hdup,
      Bool.not_true, if_true]
  · intro p rid s m nid ride hs hfr hdrv hcap hnoact hex
    have hsb : (s == 0) = false := by simpa using hs
    have hdb : (ride.driverId == p) = false := by simpa using hdrv
    have hcapb : decide (ride.availableSeats < s) = false := by
      simpa using hcap
    have hdup : (db.bookings.any fun b =>
        b.rideId == rid && b.passengerId == p &&
        !(b.status == BookingStatus.cancelled) &&
        !(b.status == BookingStatus.declined)) = false := by
      rw [List.any_eq_false]
      intro x hx
      simp only [Bool.and_eq_true, beq_iff_eq, Bool.not_eq_true',
        beq_eq_false_iff_ne, ne_eq, not_and]
      intro h1 h2
      rcases hnoact x hx h1.1.1 h1.1.2 with h | h
      · exact absurd h h1.2
      · exact absurd h h2
    have hins : insertBooking db
        { id := nid, rideId := rid, passengerId := p,
          seatsBooked := some s, status := .pending, message := m,
          totalAmount := ride.pricePerSeat * s,
          paymentStatus := .pending } = none := by
      unfold insertBooking
      rw [if_neg]
      intro hcond
      simp only [Bool.and_eq_true] at hcond
      have hall := hcond.2
      unfold uniqueIndexOk at hall
      rw [List.all_eq_true] at hall
      obtain ⟨x, hx, hx1, hx2⟩ := hex
      have := hall x hx
      simp only [Bool.not_eq_true', Bool.and_eq_false_iff,
        beq_eq_false_iff_ne, ne_eq] at this
      rcases this with h | h
      · exact h hx1
      · exact h hx2
    unfold createBooking
    simp only [hsb, Bool.false_eq_true, if_false, hfr, hdb, hcapb, hdup,
      hins, Bool.not_true, if_true]

/-- C7 amended witness: in `dbD` (passenger 1's booking on ride 0 is
cancelled), pair-uniqueness holds and is preserved by a create, and the
rebooking attempt fails with the 500 from the unique index. -/
theorem c7_amended_pair_uniqueness_witness :
    pairUnique (createBooking dbD 1 0 2 "" 11).1 ∧
    createBooking dbD 1 0 2 "" 11 = (dbD, some .serverError) := by
  have h := c7_amended_pair_uniqueness dbD (by decide) (by decide)
  refine ⟨h.1 1 0 2 "" 11, ?_⟩
  refine h.2.2.2.2.2 1 0 2 "" 11 rideA (by decide) (by decide) (by decide)
    (by decide) (by decide) ?_
  refine ⟨{ id := 10, rideId := 0, passengerId := 1, seatsBooked := some 2,
            status := .cancelled, message := "", totalAmount := 1000,
            paymentStatus := .pending }, by decide, by decide, by decide⟩

/-- C5.  Round-trip property over the operations that actually run.  In the
request-to-book variant a successful createBooking never touches the counter,
so (a) create followed by a passenger cancel from `pending` leaves
`availableSeats` exactly as before, and (b) create, driver accept (which
decrements), then passenger cancel (which restores) also returns
`availableSeats` to its pre-booking value exactly.  (c) In the instant-book
variant, book decrements and cancel adds the same `seatsBooked` back, again
restoring the pre-booking value exactly.  (d) The decrement-at-creation route
`POST /:rideId/book` of `src/routes/rides.js` — the one create for which a
pending-state cancel would leak seats — never completes: its booking document
lacks the required `seatsBooked` path, so every call fails without mutating
anything, and no seat-holding booking can come from it. -/
theorem c5_round_trip (db : Db) (dbI : IB.Db) :
    (∀ (p rid : Nat) (s : Int) (m : String) (nid : Nat) (ride : Ride),
      findRide db rid = some ride → s ≠ 0 → ride.driverId ≠ p →
      ¬ride.availableSeats < s →
      (∀ x ∈ db.bookings, ¬(x.rideId = rid ∧ x.passengerId = p)) →
      1 ≤ s → s ≤ 4 → 0 ≤ ride.pricePerSeat →
      (∀ x ∈ db.bookings, x.id ≠ nid) →
      (createBooking db p rid s m nid).2 = none ∧
      (cancelBooking (createBooking db p rid s m nid).1 p nid).2 = none ∧
      availOf (cancelBooking (createBooking db p rid s m nid).1 p nid).1 rid =
        availOf db rid) ∧
    (∀ (p rid : Nat) (s : Int) (m : String) (nid actor : Nat) (ride : Ride),
      findRide db rid = some ride → s ≠ 0 → ride.driverId ≠ p →
      ¬ride.availableSeats < s →
      (∀ x ∈ db.bookings, ¬(x.rideId = rid ∧ x.passengerId = p)) →
      1 ≤ s → s ≤ 4 →
      (∀ x ∈ db.bookings, x.id ≠ nid) →
      ride.driverId = actor →
      rideValidatorsOk ride = true → ridePreSaveOk ride = true →
      (createBooking db p rid s m nid).2 = none ∧
      (cancelBooking
        (acceptBooking (createBooking db p rid s m nid).1 actor nid).1
        p nid).2 = none ∧
      availOf (cancelBooking
        (acceptBooking (createBooking db p rid s m nid).1 actor nid).1
        p nid).1 rid = availOf db rid) ∧
    (∀ (p rid : Nat) (v : IB.JsVal) (nid : Nat) (ride : IB.Ride),
      IB.findRide dbI rid = some ride → ride.status = .active →
      (∀ b ∈ dbI.bookings,
        ¬(b.ride = rid ∧ b.passenger = p ∧ b.status = .booked)) →
      IB.seatsRequested v ≤ ride.availableSeats →
      (∀ x ∈ dbI.bookings, x.id ≠ nid) →
      (IB.book dbI p rid v nid).2 = none ∧
      (IB.cancel (IB.book dbI p rid v nid).1 p nid).2 = none ∧
      (IB.findRide (IB.cancel (IB.book dbI p rid v nid).1 p nid).1 rid).map
          (·.availableSeats) =
        (IB.findRide dbI rid).map (·.availableSeats)) ∧
    (∀ (p rid : Nat) (s : Int) (nid : Nat),
      (ridesJsBook db p rid s nid).1 = db ∧
      (ridesJsBook db p rid s nid).2 ≠ none) := by
  refine ⟨?_, ?_, ?_, fun p rid s nid => ridesJsBook_never_succeeds db p rid s nid⟩
  · intro p rid s m nid ride hfr hs0 hdrv hcap hnopair hs1 hs4 hprice hfresh
    have hc1 := createBooking_run_success db p rid s m nid ride hfr hs0 hdrv
      hcap hnopair hs1 hs4 hprice
    have hbv : bookingValidatorsOk
        { id := nid, rideId := rid, passengerId := p, seatsBooked := some s,
          status := .pending, message := m,
          totalAmount := ride.pricePerSeat * s,
          paymentStatus := .pending } = true := by
      unfold bookingValidatorsOk
      simp only [Bool.and_eq_true, decide_eq_true_eq]
      exact ⟨⟨hs1, hs4⟩, mul_nonneg hprice (by omega)⟩
    have hfb1 : findBooking
        { db with bookings := db.bookings ++
            [{ id := nid, rideId := rid, passengerId := p,
               seatsBooked := some s, status := .pending, message := m,
               totalAmount := ride.pricePerSeat * s,
               paymentStatus := .pending }] } nid =
        some { id := nid, rideId := rid, passengerId := p,
               seatsBooked := some s, status := .pending, message := m,
               totalAmount := ride.pricePerSeat * s,
               paymentStatus := .pending } := by
      unfold findBooking
      exact find?_append_fresh _ _ _
        (fun x hx => by simpa using hfresh x hx) (by simp)
    have hcan := cancelBooking_run_noseat _ p nid _ hfb1 rfl
      (by simp) (by simp) hbv
    refine ⟨by rw [hc1], ?_, ?_⟩
    · simp only [hc1, hcan]
    · simp only [hc1, hcan]
      rfl
  · intro p rid s m nid actor ride hfr hs0 hdrv hcap hnopair hs1 hs4 hfresh
      hdact hrv hhook
    have hrv' := hrv
    unfold rideValidatorsOk at hrv'
    simp only [Bool.and_eq_true, decide_eq_true_eq] at hrv'
    obtain ⟨⟨⟨⟨hp, ha⟩, ha8⟩, ht1⟩, ht8⟩ := hrv'
    have hhook' : ride.availableSeats ≤ ride.totalSeats := by
      unfold ridePreSaveOk at hhook
      simpa using hhook
    have hc1 := createBooking_run_success db p rid s m nid ride hfr hs0 hdrv
      hcap hnopair hs1 hs4 hp
    have hbv : bookingValidatorsOk
        { id := nid, rideId := rid, passengerId := p, seatsBooked := some s,
          status := .pending, message := m,
          totalAmount := ride.pricePerSeat * s,
          paymentStatus := .pending } = true := by
      unfold bookingValidatorsOk
      simp only [Bool.and_eq_true, decide_eq_true_eq]
      exact ⟨⟨hs1, hs4⟩, mul_nonneg hp (by omega)⟩
    have hfb1 : findBooking
        { db with bookings := db.bookings ++
            [{ id := nid, rideId := rid, passengerId := p,
               seatsBooked := some s, status := .pending, message := m,
               totalAmount := ride.pricePerSeat * s,
               paymentStatus := .pending }] } nid =
        some { id := nid, rideId := rid, passengerId := p,
               seatsBooked := some s, status := .pending, message := m,
               totalAmount := ride.pricePerSeat * s,
               paymentStatus := .pending } := by
      unfold findBooking
      exact find?_append_fresh _ _ _
        (fun x hx => by simpa using hfresh x hx) (by simp)
    have hfr0 : findRide
        { db with bookings := db.bookings ++
            [{ id := nid, rideId := rid, passengerId := p,
               seatsBooked := some s, status := .pending, message := m,
               totalAmount := ride.pricePerSeat * s,
               paymentStatus := .pending }] } rid = some ride := hfr
    have hacc : acceptBooking
        { db with bookings := db.bookings ++
            [{ id := nid, rideId := rid, passengerId := p,
               seatsBooked := some s, status := .pending, message := m,
               totalAmount := ride.pricePerSeat * s,
               paymentStatus := .pending }] } actor nid =
        (putRide
          (putBooking
            { db with bookings := db.bookings ++
                [{ id := nid, rideId := rid, passengerId := p,
                   seatsBooked := some s, status := .pending, message := m,
                   totalAmount := ride.pricePerSeat * s,
                   paymentStatus := .pending }] }
            { id := nid, rideId := rid, passengerId := p,
              seatsBooked := some s, status := .accepted, message := m,
              totalAmount := ride.pricePerSeat * s,
              paymentStatus := .pending })
          { ride with availableSeats := ride.availableSeats - s },
         some .serverError) :=
      acceptBooking_run _ actor nid _ ride hfb1 hfr hdact rfl hcap hbv hrv
        hhook
    have hfb2 : findBooking
        (putRide
          (putBooking
            { db with bookings := db.bookings ++
                [{ id := nid, rideId := rid, passengerId := p,
                   seatsBooked := some s, status := .pending, message := m,
                   totalAmount := ride.pricePerSeat * s,
                   paymentStatus := .pending }] }
            { id := nid, rideId := rid, passengerId := p,
              seatsBooked := some s, status := .accepted, message := m,
              totalAmount := ride.pricePerSeat * s,
              paymentStatus := .pending })
          { ride with availableSeats := ride.availableSeats - s }) nid =
        some { id := nid, rideId := rid, passengerId := p,
               seatsBooked := some s, status := .accepted, message := m,
               totalAmount := ride.pricePerSeat * s,
               paymentStatus := .pending } := by
      rw [findBooking_putRide, findBooking_putBooking, hfb1]
      simp
    have hfr2 : findRide
        (putRide
          (putBooking
            { db with bookings := db.bookings ++
                [{ id := nid, rideId := rid, passengerId := p,
                   seatsBooked := some s, status := .pending, message := m,
                   totalAmount := ride.pricePerSeat * s,
                   paymentStatus := .pending }] }
            { id := nid, rideId := rid, passengerId := p,
              seatsBooked := some s, status := .accepted, message := m,
              totalAmount := ride.pricePerSeat * s,
              paymentStatus := .pending })
          { ride with availableSeats := ride.availableSeats - s }) rid =
        some { ride with availableSeats := ride.availableSeats - s } := by
      rw [findRide_putRide, findRide_putBooking, hfr0]
      simp
    have hbvacc : bookingValidatorsOk
        { id := nid, rideId := rid, passengerId := p, seatsBooked := some s,
          status := .accepted, message := m,
          totalAmount := ride.pricePerSeat * s,
          paymentStatus := .pending } = true := hbv
    have hokc : (0 : Int) ≤
          ({ ride with availableSeats := ride.availableSeats - s } :
            Ride).pricePerSeat ∧
        (0 : Int) ≤ ride.availableSeats - s + s ∧
        ride.availableSeats - s + s ≤ 8 ∧
        (1 : Int) ≤ ride.totalSeats ∧ ride.totalSeats ≤ 8 ∧
        ride.availableSeats - s + s ≤ ride.totalSeats := by
      refine ⟨hp, by omega, by omega, ht1, ht8, by omega⟩
    have hcan := cancelBooking_run_accepted _ p nid _ _ hfb2 rfl rfl hfr2
      hbvacc hokc
    refine ⟨by rw [hc1], ?_, ?_⟩
    · simp only [hc1, hacc, hcan]
    · simp only [hc1, hacc, hcan, availOf, findRide_putRide,
        findRide_putBooking, hfr0, hfr, Option.map_some, Option.map_some',
        beq_self_eq_true, if_true, Booking.seats, Option.getD_some,
        Option.some.injEq]
      omega
  · intro p rid v nid ride hfr hact hno hfit hfresh
    have hb := ib_book_characterization dbI ride p rid nid v hfr hact hno
    rw [if_pos hfit] at hb
    have hfb1 : (dbI.bookings ++
          [({ id := nid, ride := rid, passenger := p,
              seatsBooked := IB.seatsRequested v,
              status := IB.BookedStatus.booked } : IB.Booking)]).find?
        (fun x => x.id == nid) =
        some { id := nid, ride := rid, passenger := p,
               seatsBooked := IB.seatsRequested v,
               status := IB.BookedStatus.booked } :=
      find?_append_fresh _ _ _ (fun x hx => by simpa using hfresh x hx)
        (by simp)
    have hfr1 : IB.findRide
        { rides := dbI.rides.map fun x =>
            if x.id == ride.id then
              { ride with
                availableSeats := ride.availableSeats - IB.seatsRequested v }
            else x,
          bookings := dbI.bookings ++
            [{ id := nid, ride := rid, passenger := p,
               seatsBooked := IB.seatsRequested v,
               status := IB.BookedStatus.booked }] } rid =
        some { ride with
               availableSeats :=
                 ride.availableSeats - IB.seatsRequested v } := by
      unfold IB.findRide
      rw [find?_map_congr _ _ _ (by
        intro a _
        by_cases hx : a.id = ride.id <;> simp [hx])]
      rw [show dbI.rides.find? (fun r => r.id == rid) = some ride from hfr]
      simp
    have hcan := ib_cancel_run
      ({ rides := dbI.rides.map fun x =>
            if x.id == ride.id then
              { ride with
                availableSeats := ride.availableSeats - IB.seatsRequested v }
            else x,
         bookings := dbI.bookings ++
           [{ id := nid, ride := rid, passenger := p,
              seatsBooked := IB.seatsRequested v,
              status := IB.BookedStatus.booked }] } : IB.Db) p nid
      ({ id := nid, ride := rid, passenger := p,
         seatsBooked := IB.seatsRequested v,
         status := IB.BookedStatus.booked } : IB.Booking)
      ({ ride with
         availableSeats := ride.availableSeats - IB.seatsRequested v } :
        IB.Ride)
      hfb1 rfl rfl hfr1
    refine ⟨by rw [hb], ?_, ?_⟩
    · simp only [hb, hcan]
    · simp only [hb, hcan, ib_findRide_putBooking, ib_findRide_putRide, hfr1,
        hfr, Option.map_some, Option.map_some', beq_self_eq_true, if_true,
        Option.some.injEq]
      omega
/-- Contribution of one booking to a ride's accepted-seats total (this
variant reserves seats at acceptance, so only `accepted` bookings hold
seats). -/
def contrib (rid : Nat) (b : Booking) : Int :=
  if b.rideId == rid && b.status == BookingStatus.accepted then b.seats else 0

/-- Seats held by the accepted bookings of a ride. -/
def acceptedSeats (db : Db) (rid : Nat) : Int :=
  (db.bookings.map (contrib rid)).sum

/-- The amended accounting invariant: `totalSeats - availableSeats` equals
the seats of the ride's accepted bookings. -/
def seatAccounting (db : Db) : Prop :=
  ∀ r ∈ db.rides, r.totalSeats - r.availableSeats = acceptedSeats db r.id

instance (db : Db) : Decidable (seatAccounting db) := by
  unfold seatAccounting
  infer_instance

/-- Store well-formedness, as maintained by the persistence layer: unique
document ids per collection, validated documents, and no dangling ride
references. -/
def dbWf (db : Db) : Prop :=
  (db.rides.map (·.id)).Nodup ∧ (db.bookings.map (·.id)).Nodup ∧
  (∀ b ∈ db.bookings, bookingValidatorsOk b = true) ∧
  (∀ r ∈ db.rides, rideValidatorsOk r = true ∧ ridePreSaveOk r = true) ∧
  (∀ b ∈ db.bookings, ∃ r ∈ db.rides, r.id = b.rideId)

instance (db : Db) : Decidable (dbWf db) := by
  unfold dbWf
  infer_instance

theorem contrib_of_not_accepted (rid2 : Nat) (b : Booking)
    (h : b.status ≠ .accepted) : contrib rid2 b = 0 := by
  unfold contrib
  rw [if_neg]
  simp [h]

theorem contrib_of_ne_ride (rid2 : Nat) (b : Booking)
    (h : b.rideId ≠ rid2) : contrib rid2 b = 0 := by
  unfold contrib
  rw [if_neg]
  simp [h]

theorem contrib_nonneg (rid2 : Nat) (b : Booking)
    (hbv : bookingValidatorsOk b = true) : 0 ≤ contrib rid2 b := by
  obtain ⟨h1, _⟩ := seats_bounds_of_valid b hbv
  unfold contrib
  split
  · omega
  · exact le_refl 0

theorem contrib_le_acceptedSeats (db : Db) (b : Booking)
    (hb : b ∈ db.bookings)
    (hbval : ∀ x ∈ db.bookings, bookingValidatorsOk x = true)
    (rid2 : Nat) : contrib rid2 b ≤ acceptedSeats db rid2 := by
  unfold acceptedSeats
  refine List.single_le_sum ?_ _ (List.mem_map_of_mem _ hb)
  intro x hx
  simp only [List.mem_map] at hx
  obtain ⟨y, hy, rfl⟩ := hx
  exact contrib_nonneg _ _ (hbval y hy)

/-- Summing any per-booking quantity after replacing the unique booking with
id `b1.id = b.id`. -/
theorem sum_map_replace (g : Booking → Int) (l : List Booking)
    (hnd : (l.map (·.id)).Nodup) (b b1 : Booking) (hb : b ∈ l)
    (hid : b1.id = b.id) :
    ((l.map fun x => if x.id == b1.id then b1 else x).map g).sum =
      (l.map g).sum + (g b1 - g b) := by
  induction l with
  | nil => cases hb
  | cons a t ih =>
    simp only [List.map_cons, List.nodup_cons, List.mem_map,
      not_exists] at hnd
    obtain ⟨hhead, htail⟩ := hnd
    rcases List.mem_cons.mp hb with rfl | hbt
    · have hcond : (b.id == b1.id) = true := by simp [hid]
      have htmap : (t.map fun x => if x.id == b1.id then b1 else x) = t := by
        have hfix : ∀ x ∈ t, (if x.id == b1.id then b1 else x) = x := by
          intro x hx
          rw [if_neg]
          intro he
          exact hhead x ⟨hx, by rw [← hid]; simpa using he⟩
        calc t.map (fun x => if x.id == b1.id then b1 else x) = t.map id :=
              List.map_congr_left hfix
          _ = t := List.map_id t
      have hif : (if (b.id == b1.id) = true then b1 else b) = b1 :=
        if_pos hcond
      simp only [List.map_cons, hif, htmap, List.sum_cons]
      omega
    · have hane : (a.id == b1.id) = false := by
        rw [beq_eq_false_iff_ne]
        intro he
        refine hhead b ⟨hbt, ?_⟩
        rw [hid] at he
        exact he.symm
      have hif : (if (a.id == b1.id) = true then b1 else a) = a :=
        if_neg (by simp [hane])
      simp only [List.map_cons, hif, List.sum_cons]
      have := ih htail hbt
      omega

/-- Replacing one booking by another with the same id and the same
per-ride contribution keeps the accounting invariant. -/
theorem seatAccounting_putBooking (db : Db) (b b1 : Booking)
    (hndB : (db.bookings.map (·.id)).Nodup)
    (hb : b ∈ db.bookings) (hid : b1.id = b.id)
    (hoff : ∀ rid2, contrib rid2 b1 = contrib rid2 b)
    (hacc : seatAccounting db) : seatAccounting (putBooking db b1) := by
  intro r2 hr2
  have h0 := hacc r2 hr2
  unfold acceptedSeats
  show r2.totalSeats - r2.availableSeats =
    ((db.bookings.map fun x => if x.id == b1.id then b1 else x).map
      (contrib r2.id)).sum
  rw [sum_map_replace _ _ hndB b b1 hb hid, hoff r2.id]
  unfold acceptedSeats at h0
  omega

/-- Appending a booking that holds no seats anywhere keeps the accounting
invariant. -/
theorem seatAccounting_append (db : Db) (b : Booking)
    (h0 : ∀ rid2, contrib rid2 b = 0) (hacc : seatAccounting db) :
    seatAccounting { db with bookings := db.bookings ++ [b] } := by
  intro r2 hr2
  have h1 := hacc r2 hr2
  unfold acceptedSeats at h1 ⊢
  show r2.totalSeats - r2.availableSeats =
    ((db.bookings ++ [b]).map (contrib r2.id)).sum
  rw [List.map_append, List.sum_append]
  simp only [List.map_cons, List.map_nil, List.sum_cons, List.sum_nil,
    h0 r2.id]
  omega

/-- The combined update of accept/cancel — replace one booking and its
ride — keeps the accounting invariant when the seat delta on the ride
matches the contribution delta of the booking. -/
theorem seatAccounting_put_put (db : Db) (b b1 : Booking)
    (ride ride1 : Ride)
    (hndB : (db.bookings.map (·.id)).Nodup)
    (hb : b ∈ db.bookings)
    (hid : b1.id = b.id)
    (hride : ride ∈ db.rides)
    (hrid1 : ride1.id = ride.id)
    (htot : ride1.totalSeats = ride.totalSeats)
    (hdelta : ride.availableSeats - ride1.availableSeats =
      contrib ride.id b1 - contrib ride.id b)
    (hoff : ∀ rid2, rid2 ≠ ride.id → contrib rid2 b1 = contrib rid2 b)
    (hacc : seatAccounting db) :
    seatAccounting (putRide (putBooking db b1) ride1) := by
  have hsum : ∀ rid2,
      acceptedSeats (putRide (putBooking db b1) ride1) rid2 =
        acceptedSeats db rid2 + (contrib rid2 b1 - contrib rid2 b) := by
    intro rid2
    unfold acceptedSeats
    show ((db.bookings.map fun x => if x.id == b1.id then b1 else x).map
        (contrib rid2)).sum = _
    exact sum_map_replace _ _ hndB b b1 hb hid
  intro r2 hr2
  have hr2' : ∃ y ∈ db.rides, (if y.id == ride1.id then ride1 else y) = r2 := by
    simpa [putRide, putBooking] using hr2
  obtain ⟨y, hy, rfl⟩ := hr2'
  by_cases hyy : (y.id == ride1.id) = true
  · simp only [hyy, if_true]
    rw [hsum ride1.id, hrid1]
    have h0 := hacc ride hride
    omega
  · simp only [hyy, Bool.false_eq_true, if_false]
    rw [hsum y.id, hoff y.id (by
      intro he
      exact hyy (by rw [he, ← hrid1]; simp))]
    have h0 := hacc y hy
    omega

theorem createBooking_preserves_accounting (db : Db) (p rid : Nat) (s : Int)
    (m : String) (nid : Nat) (hacc : seatAccounting db) :
    seatAccounting (createBooking db p rid s m nid).1 := by
  unfold createBooking
  split
  · exact hacc
  split
  · exact hacc
  split
  · exact hacc
  split
  · exact hacc
  split
  · exact hacc
  dsimp only
  split
  · exact hacc
  next db1 heq =>
    unfold insertBooking at heq
    split at heq
    · injection heq with heq
      subst heq
      exact seatAccounting_append db _ (fun rid2 =>
        contrib_of_not_accepted rid2 _ (by simp)) hacc
    · exact absurd heq (by simp)

theorem acceptBooking_preserves_accounting (db : Db) (a bid : Nat)
    (hwf : dbWf db) (hacc : seatAccounting db) :
    seatAccounting (acceptBooking db a bid).1 := by
  obtain ⟨hndR, hndB, hbval, hrval, hrefs⟩ := hwf
  unfold acceptBooking
  split
  · exact hacc
  next b hfb =>
    split
    · exact hacc
    next ride hfr =>
      split
      · exact hacc
      next hauth =>
        split
        · exact hacc
        next hpendn =>
          split
          · exact hacc
          next hcapn =>
            have hbmem : b ∈ db.bookings := by
              unfold findBooking at hfb
              exact List.mem_of_find?_eq_some hfb
            have hrmem : ride ∈ db.rides := by
              unfold findRide at hfr
              exact List.mem_of_find?_eq_some hfr
            have hrideid : ride.id = b.rideId := by
              unfold findRide at hfr
              simpa using List.find?_some hfr
            have hpend : b.status = .pending := by
              simpa using hpendn
            have hcap : ¬ride.availableSeats < b.seats := by
              simpa using hcapn
            obtain ⟨hs1, hs4⟩ := seats_bounds_of_valid b (hbval b hbmem)
            have hrv := (hrval ride hrmem).1
            have hhk := (hrval ride hrmem).2
            unfold rideValidatorsOk at hrv
            simp only [Bool.and_eq_true, decide_eq_true_eq] at hrv
            obtain ⟨⟨⟨⟨hp, ha⟩, ha8⟩, ht1⟩, ht8⟩ := hrv
            have hhk' : ride.availableSeats ≤ ride.totalSeats := by
              unfold ridePreSaveOk at hhk
              simpa using hhk
            split
            next heq1 =>
              exfalso
              unfold saveBookingUpdate at heq1
              rw [bookingValidatorsOk_status, hbval b hbmem] at heq1
              exact absurd heq1 (by simp)
            next db1 heq1 =>
              unfold saveBookingUpdate at heq1
              rw [bookingValidatorsOk_status, hbval b hbmem] at heq1
              simp only [if_true] at heq1
              injection heq1 with heq1
              subst heq1
              have hcond : (rideValidatorsOk
                  { ride with
                    availableSeats := ride.availableSeats - b.seats } &&
                  ridePreSaveOk
                  { ride with
                    availableSeats := ride.availableSeats - b.seats }) =
                  true := by
                unfold rideValidatorsOk ridePreSaveOk
                simp only [Bool.and_eq_true, decide_eq_true_eq]
                exact ⟨⟨⟨⟨⟨hp, by omega⟩, by omega⟩, ht1⟩, ht8⟩, by omega⟩
              split
              next heq2 =>
                exfalso
                unfold saveRide at heq2
                rw [hcond] at heq2
                exact absurd heq2 (by simp)
              next db2 heq2 =>
                unfold saveRide at heq2
                rw [hcond] at heq2
                simp only [if_true] at heq2
                injection heq2 with heq2
                subst heq2
                refine seatAccounting_put_put db b
                  { b with status := .accepted } ride
                  { ride with
                    availableSeats := ride.availableSeats - b.seats }
                  hndB hbmem rfl hrmem rfl rfl ?_ ?_ hacc
                · have hc0 : contrib ride.id b = 0 :=
                    contrib_of_not_accepted _ _ (by rw [hpend]; simp)
                  have hc1 : contrib ride.id
                      { b with status := .accepted } = b.seats := by
                    unfold contrib
                    rw [if_pos (by simp [hrideid])]
                    rfl
                  rw [hc0, hc1]
                  show ride.availableSeats -
                    (ride.availableSeats - b.seats) = b.seats - 0
                  omega
                · intro rid2 hne
                  have hc0 : contrib rid2 b = 0 :=
                    contrib_of_not_accepted _ _ (by rw [hpend]; simp)
                  have hc1 : contrib rid2 { b with status := .accepted } = 0 :=
                    contrib_of_ne_ride _ _ (by
                      show b.rideId ≠ rid2
                      rw [← hrideid]
                      exact fun he => hne he.symm)
                  rw [hc0, hc1]

theorem declineBooking_preserves_accounting (db : Db) (a bid : Nat)
    (hwf : dbWf db) (hacc : seatAccounting db) :
    seatAccounting (declineBooking db a bid).1 := by
  obtain ⟨hndR, hndB, hbval, hrval, hrefs⟩ := hwf
  unfold declineBooking
  split
  · exact hacc
  next b hfb =>
    split
    · exact hacc
    next ride hfr =>
      split
      · exact hacc
      next hauth =>
        split
        · exact hacc
        next hpendn =>
          have hbmem : b ∈ db.bookings := by
            unfold findBooking at hfb
            exact List.mem_of_find?_eq_some hfb
          have hpend : b.status = .pending := by
            simpa using hpendn
          split
          next heq1 =>
            exact hacc
          next db1 heq1 =>
            unfold saveBookingUpdate at heq1
            rw [bookingValidatorsOk_status, hbval b hbmem] at heq1
            simp only [if_true] at heq1
            injection heq1 with heq1
            subst heq1
            refine seatAccounting_putBooking db b
              { b with status := .declined } hndB hbmem rfl ?_ hacc
            intro rid2
            rw [contrib_of_not_accepted rid2 _ (by simp),
              contrib_of_not_accepted rid2 b (by rw [hpend]; simp)]

theorem cancelBooking_preserves_accounting (db : Db) (a bid : Nat)
    (hwf : dbWf db) (hacc : seatAccounting db) :
    seatAccounting (cancelBooking db a bid).1 := by
  obtain ⟨hndR, hndB, hbval, hrval, hrefs⟩ := hwf
  unfold cancelBooking
  split
  · exact hacc
  next b hfb =>
    split
    · exact hacc
    split
    · exact hacc
    next hcanc =>
      have hbmem : b ∈ db.bookings := by
        unfold findBooking at hfb
        exact List.mem_of_find?_eq_some hfb
      split
      next heq1 =>
        exact hacc
      next db1 heq1 =>
        unfold saveBookingUpdate at heq1
        rw [bookingValidatorsOk_status, hbval b hbmem] at heq1
        simp only [if_true] at heq1
        injection heq1 with heq1
        subst heq1
        split
        · next haccst =>
          have haccst' : b.status = .accepted := by simpa using haccst
          split
          next heqr =>
            exfalso
            obtain ⟨r, hr, hrid⟩ := hrefs b hbmem
            unfold findRide at heqr
            rw [List.find?_eq_none] at heqr
            exact absurd (by simp [hrid] : (r.id == b.rideId) = true)
              (heqr r hr)
          next ride hfr =>
            have hrmem : ride ∈ db.rides := by
              unfold findRide at hfr
              exact List.mem_of_find?_eq_some hfr
            have hrideid : ride.id = b.rideId := by
              unfold findRide at hfr
              simpa using List.find?_some hfr
            obtain ⟨hs1, hs4⟩ := seats_bounds_of_valid b (hbval b hbmem)
            have hrv := (hrval ride hrmem).1
            unfold rideValidatorsOk at hrv
            simp only [Bool.and_eq_true, decide_eq_true_eq] at hrv
            obtain ⟨⟨⟨⟨hp, ha⟩, ha8⟩, ht1⟩, ht8⟩ := hrv
            have hcontr : contrib ride.id b = b.seats := by
              unfold contrib
              rw [if_pos]
              simp [hrideid, haccst']
            have hle : b.seats ≤ acceptedSeats db ride.id := by
              rw [← hcontr]
              exact contrib_le_acceptedSeats db b hbmem hbval ride.id
            have hsumr := hacc ride hrmem
            have hcond : (rideValidatorsOk
                { ride with
                  availableSeats := ride.availableSeats + b.seats } &&
                ridePreSaveOk
                { ride with
                  availableSeats := ride.availableSeats + b.seats }) =
                true := by
              unfold rideValidatorsOk ridePreSaveOk
              simp only [Bool.and_eq_true, decide_eq_true_eq]
              exact ⟨⟨⟨⟨⟨hp, by omega⟩, by omega⟩, ht1⟩, ht8⟩, by omega⟩
            split
            next heq2 =>
              exfalso
              unfold saveRide at heq2
              rw [hcond] at heq2
              exact absurd heq2 (by simp)
            next db2 heq2 =>
              unfold saveRide at heq2
              rw [hcond] at heq2
              simp only [if_true] at heq2
              injection heq2 with heq2
              subst heq2
              refine seatAccounting_put_put db b
                { b with status := .cancelled } ride
                { ride with
                  availableSeats := ride.availableSeats + b.seats }
                hndB hbmem rfl hrmem rfl rfl ?_ ?_ hacc
              · rw [contrib_of_not_accepted ride.id _ (by simp), hcontr]
                show ride.availableSeats -
                  (ride.availableSeats + b.seats) = 0 - b.seats
                omega
              · intro rid2 hne
                rw [contrib_of_not_accepted rid2 _ (by simp),
                  contrib_of_ne_ride rid2 b (by
                    show b.rideId ≠ rid2
                    rw [← hrideid]
                    exact fun he => hne he.symm)]
        · next haccst =>
          refine seatAccounting_putBooking db b
            { b with status := .cancelled } hndB hbmem rfl ?_ hacc
          intro rid2
          rw [contrib_of_not_accepted rid2 _ (by simp),
            contrib_of_not_accepted rid2 b (by simpa using haccst)]

/-- C6 (amended).  In this variant pending bookings do NOT hold seats (see
the counterexample), so the accounting invariant that the code actually
maintains counts accepted bookings only: for every ride, after each
booking-lifecycle operation (createBooking, acceptBooking, declineBooking,
cancelBooking) on a well-formed store, `totalSeats − availableSeats` equals
the sum of `seatsBooked` over that ride's ACCEPTED bookings. -/
theorem c6_amended_accepted_seat_accounting (db : Db) (hwf : dbWf db)
    (hacc : seatAccounting db) :
    (∀ (p rid : Nat) (s : Int) (m : String) (nid : Nat),
      seatAccounting (createBooking db p rid s m nid).1) ∧
    (∀ a bid : Nat, seatAccounting (acceptBooking db a bid).1) ∧
    (∀ a bid : Nat, seatAccounting (declineBooking db a bid).1) ∧
    (∀ a bid : Nat, seatAccounting (cancelBooking db a bid).1) :=
  ⟨fun p rid s m nid => createBooking_preserves_accounting db p rid s m nid hacc,
   fun a bid => acceptBooking_preserves_accounting db a bid hwf hacc,
   fun a bid => declineBooking_preserves_accounting db a bid hwf hacc,
   fun a bid => cancelBooking_preserves_accounting db a bid hwf hacc⟩

/-- C6 amended witness: the Scenario A store is well-formed and consistent,
and stays consistent through create and accept. -/
theorem c6_amended_accepted_seat_accounting_witness :
    seatAccounting (createBooking dbA 1 0 2 "" 10).1 ∧
    seatAccounting (acceptBooking dbB 7 10).1 :=
  ⟨(c6_amended_accepted_seat_accounting dbA (by decide) (by decide)).1
      1 0 2 "" 10,
   (c6_amended_accepted_seat_accounting dbB (by decide) (by decide)).2.1
      7 10⟩

/-- C5 witness: Scenario A concrete run — create 2 seats (availableSeats
stays 4), accept (down to 2), cancel (back to 4). -/
theorem c5_round_trip_witness :
    (createBooking dbA 1 0 2 "" 10).2 = none ∧
    (cancelBooking
      (acceptBooking (createBooking dbA 1 0 2 "" 10).1 7 10).1 1 10).2 =
      none ∧
    availOf (cancelBooking
      (acceptBooking (createBooking dbA 1 0 2 "" 10).1 7 10).1 1 10).1 0 =
      availOf dbA 0 :=
  (c5_round_trip dbA { rides := [], bookings := [] }).2.1 1 0 2 "" 10 7 rideA
    (by decide) (by decide) (by decide) (by decide)
    (by intro x hx; cases hx) (by decide) (by decide)
    (by intro x hx; cases hx) (by decide) (by decide) (by decide)

/-- C8 amended witness: on the Scenario A ride (4 of 4 seats free), releasing
2 seats errors out, while releasing 0 (within capacity) persists the
increment. -/
theorem c8_amended_release_rejects_instead_of_clamping_witness :
    releaseSeats dbA 0 2 = none ∧
    releaseSeats dbA 0 0 =
      some (putRide dbA { rideA with availableSeats := 4 }) := by
  constructor
  · have h := c8_amended_release_rejects_instead_of_clamping dbA 0 2 rideA
      (by decide) (by decide) (by decide)
    simpa using h
  · have h := c8_amended_release_rejects_instead_of_clamping dbA 0 0 rideA
      (by decide) (by decide) (by decide)
    simpa using h

end SafarShare
